import Mathlib

/-!
Verification of the procedural mesh-generation core of project_harmonia:
wall mesh generation (`src/core/wall/wall_mesh.rs`) and road mesh generation
(`base/src/game_world/city/road/road_mesh.rs`) over connected 2D segment
networks.  Machine floats (`f32`) are modelled as real numbers; the external
`earcutr::earcut` triangulator is modelled as an explicit function parameter.
-/

namespace Harmonia

noncomputable section

open scoped Classical

/-- 2D vector, modelling glam's `Vec2` (components modelled as reals). -/
structure Vec2 where
  x : ℝ
  y : ℝ

instance : Add Vec2 := ⟨fun a b => ⟨a.x + b.x, a.y + b.y⟩⟩

instance : Sub Vec2 := ⟨fun a b => ⟨a.x - b.x, a.y - b.y⟩⟩

instance : Neg Vec2 := ⟨fun a => ⟨-a.x, -a.y⟩⟩

@[simp] theorem Vec2.add_def (a b : Vec2) : a + b = ⟨a.x + b.x, a.y + b.y⟩ := rfl

@[simp] theorem Vec2.sub_def (a b : Vec2) : a - b = ⟨a.x - b.x, a.y - b.y⟩ := rfl

@[simp] theorem Vec2.neg_def (a : Vec2) : -a = ⟨-a.x, -a.y⟩ := rfl

/-- Scalar multiplication `v * c` on glam vectors. -/
def Vec2.scale (c : ℝ) (v : Vec2) : Vec2 := ⟨c * v.x, c * v.y⟩

/-- glam `Vec2::perp`: counter-clockwise rotation by 90 degrees. -/
def Vec2.perp (v : Vec2) : Vec2 := ⟨-v.y, v.x⟩

/-- glam `Vec2::dot`. -/
def Vec2.dot (a b : Vec2) : ℝ := a.x * b.x + a.y * b.y

/-- glam `Vec2::perp_dot`: the 2D cross product. -/
def Vec2.perp_dot (a b : Vec2) : ℝ := a.x * b.y - a.y * b.x

/-- glam `Vec2::length`. -/
def Vec2.length (v : Vec2) : ℝ := Real.sqrt (v.x ^ 2 + v.y ^ 2)

/-- glam `Vec2::normalize`: `v / v.length()`. -/
def Vec2.normalize (v : Vec2) : Vec2 := Vec2.scale (1 / v.length) v

/-- Standard two-argument arctangent, realized as the argument of the complex
number `x + y*i`; models `f32::atan2`. -/
def atan2 (y x : ℝ) : ℝ := Complex.arg ⟨x, y⟩

/-- glam `Vec2::to_angle`: `atan2(y, x)`. -/
def Vec2.to_angle (v : Vec2) : ℝ := atan2 v.y v.x

/-- glam `Vec2::angle_between`: the signed angle from `a` to `b`,
`atan2(perp_dot(a, b), dot(a, b))`, in `(-pi, pi]`. -/
def Vec2.angle_between (a b : Vec2) : ℝ := atan2 (a.perp_dot b) (a.dot b)

/-- 3D vector, modelling glam's `Vec3`. -/
structure Vec3 where
  x : ℝ
  y : ℝ
  z : ℝ

instance : Add Vec3 := ⟨fun a b => ⟨a.x + b.x, a.y + b.y, a.z + b.z⟩⟩

@[simp] theorem Vec3.add_components (a b : Vec3) :
    a + b = ⟨a.x + b.x, a.y + b.y, a.z + b.z⟩ := rfl

/-- Applying glam's `Mat2::from_angle θ` to a vector (rotation by `θ`). -/
def rotate (θ : ℝ) (v : Vec2) : Vec2 :=
  ⟨v.x * Real.cos θ - v.y * Real.sin θ, v.x * Real.sin θ + v.y * Real.cos θ⟩

/-- Applying glam's `Quat::from_axis_angle(Vec3::Y, θ)` to a 3D vector. -/
def quatMulVec3 (θ : ℝ) (v : Vec3) : Vec3 :=
  ⟨v.x * Real.cos θ + v.z * Real.sin θ, v.y, -(v.x * Real.sin θ) + v.z * Real.cos θ⟩

/-- Modelled from the spec: `src/core/line.rs` is referenced by `wall_mesh.rs` as
`crate::core::line::Line` but is absent from the provided sources.  Spec 4.1: a
parametrized offset line is the line through `start`/`end` translated by a
perpendicular offset vector; intersection with another such line returns `None`
when the lines are parallel.  A line is stored by two points on it. -/
structure Line where
  a : Vec2
  b : Vec2

/-- Modelled from the spec: the line through `s` and `e`, translated by `offset`. -/
def Line.with_offset (s e offset : Vec2) : Line := ⟨s + offset, e + offset⟩

/-- Modelled from the spec: intersection point of the two infinite lines, or
`none` when they are parallel (zero cross product of the direction vectors). -/
def Line.intersection (l1 l2 : Line) : Option Vec2 :=
  let d1 := l1.b - l1.a
  let d2 := l2.b - l2.a
  if d1.perp_dot d2 = 0 then none
  else some (l1.a + Vec2.scale ((l2.a - l1.a).perp_dot d2 / d1.perp_dot d2) d1)

/-- itertools' `MinMaxResult`. -/
inductive MinMaxResult (α : Type) where
  | noElements
  | oneElement (x : α)
  | minMax (mn mx : α)

/-- Accumulating pass of itertools' minmax: the minimum is only replaced by a
strictly smaller key (keeping the first minimal element), the maximum also by an
equal key (keeping the last maximal element). -/
def minmaxGo {α : Type} (key : α → ℝ) : α → α → List α → α × α
  | mn, mx, [] => (mn, mx)
  | mn, mx, z :: zs =>
    minmaxGo key (if key z < key mn then z else mn) (if key mx ≤ key z then z else mx) zs

/-- Models itertools' `minmax_by_key` on a list: no elements, one element, or
the (first) minimal and (last) maximal element by key. -/
def minmaxByKey {α : Type} (key : α → ℝ) : List α → MinMaxResult α
  | [] => .noElements
  | [x] => .oneElement x
  | x :: y :: rest =>
    let p := if key y < key x then (y, x) else (x, y)
    let q := minmaxGo key p.1 p.2 rest
    .minMax q.1 q.2

/-- Which endpoint of a segment a connection touches; `PointKind` in the source
(defined in the wall/spline module, used by both mesh builders). -/
inductive PointKind where
  | Start
  | End
deriving DecidableEq

/-- Modelled from the spec, section 3: a wall or road piece `{start, end}` with
`inverse()` swapping the endpoints.  The `Wall` / `Segment` structs themselves
are defined outside the provided sources; their operations are dictated by
their uses in `wall_mesh.rs` and `road_mesh.rs`. -/
structure Segment where
  start : Vec2
  «end» : Vec2

/-- `end - start`. -/
def Segment.displacement (s : Segment) : Vec2 := s.«end» - s.start

/-- Segment with the endpoints swapped. -/
def Segment.inverse (s : Segment) : Segment := ⟨s.«end», s.start⟩

/-- `Wall` in `wall_mesh.rs` has the same two-point shape as `Segment`. -/
abbrev Wall := Segment

/-- Modelled from the spec, section 3: a connection `{segment, endpoint_kind}`
recorded at a network node (`WallConnection` in the source, outside the
provided files). -/
structure WallConnection where
  wall : Wall
  point_kind : PointKind

/-- Per-endpoint connection lists of a wall (`WallConnections`). -/
structure WallConnections where
  start : List WallConnection
  «end» : List WallConnection

/-- An aperture: hole polygon vertices in the wall's local frame plus a
translation; the two fields of the source's `Aperture` used by `wall_mesh.rs`. -/
structure Aperture where
  positions : List Vec2
  translation : Vec3

/-- The source's `Apertures` newtype over a vector of apertures. -/
abbrev Apertures := List Aperture

/-- `WIDTH` from `wall_mesh.rs`. -/
def WIDTH : ℝ := 0.15

/-- `HEIGHT` from `wall_mesh.rs`. -/
def HEIGHT : ℝ := 2.8

/-- `HALF_WIDTH` from `wall_mesh.rs`. -/
def HALF_WIDTH : ℝ := WIDTH / 2

/-- `wall_width` from `wall_mesh.rs`: the thickness vector facing left relative
to the wall vector. -/
def wall_width (disp : Vec2) : Vec2 := Vec2.scale HALF_WIDTH disp.perp.normalize

/-- `wall_intersection` from `wall_mesh.rs`: intersection of this wall's offset
line with another wall's offset line, falling back to the plain offset point
when the lines do not intersect. -/
def wall_intersection (wall : Wall) (width : Vec2) (other_wall : Wall) (other_width : Vec2) :
    Vec2 :=
  ((Line.with_offset wall.start wall.«end» width).intersection
      (Line.with_offset other_wall.start other_wall.«end» other_width)).getD
    (wall.start + width)

/-- `offset_points` from `wall_mesh.rs`: the left and right boundary points at
the wall's start, given the extreme neighbors at that point. -/
def offset_points (wall : Wall) (min_max_walls : MinMaxResult Wall) (width : Vec2) :
    Vec2 × Vec2 :=
  match min_max_walls with
  | .noElements => (wall.start + width, wall.start - width)
  | .oneElement other_wall =>
    let other_width := wall_width other_wall.displacement
    (wall_intersection wall width other_wall (-other_width),
     wall_intersection wall (-width) other_wall.inverse other_width)
  | .minMax min_wall max_wall =>
    (wall_intersection wall width max_wall (-(wall_width max_wall.displacement)),
     wall_intersection wall (-width) min_wall.inverse (wall_width min_wall.displacement))

/-- The sort key used by `minmax_angles`: the signed angle from the neighbor's
displacement to `disp`, shifted by `2*pi` when negative. -/
def normalizedAngle (disp : Vec2) (w : Wall) : ℝ :=
  let angle := (Segment.displacement w).angle_between disp
  if angle < 0 then angle + 2 * Real.pi else angle

/-- The per-connection segment orientation performed inside `minmax_angles`:
the four `(point_kind, connection.point_kind)` combinations. -/
def orientConnection (point_kind : PointKind) (c : WallConnection) : Wall :=
  match point_kind, c.point_kind with
  | .Start, .End => c.wall.inverse
  | .End, .Start => c.wall
  | .Start, .Start => c.wall
  | .End, .End => c.wall.inverse

/-- `minmax_angles` from `wall_mesh.rs`: the neighbors with minimal and maximal
normalized angle relative to `disp`. -/
def minmax_angles (disp : Vec2) (point_kind : PointKind)
    (point_connections : List WallConnection) : MinMaxResult Wall :=
  minmaxByKey (normalizedAngle disp) (point_connections.map (orientConnection point_kind))

/-- The dynamic mesh buffer: positions, UVs, normals and triangle indices kept
in lockstep.  Models both `WallMesh` (`wall_mesh.rs`) and `DynamicMesh`
(`dynamic_mesh.rs`), whose fields are identical. -/
structure DynamicMesh where
  positions : List Vec3
  uvs : List Vec2
  normals : List Vec3
  indices : List ℕ

/-- `WallMesh` in `wall_mesh.rs` holds the same four buffers as `DynamicMesh`. -/
abbrev WallMesh := DynamicMesh

/-- The empty mesh buffer. -/
def emptyMesh : DynamicMesh := ⟨[], [], [], []⟩

/-- `clear`: resets all four sequences to length zero. -/
def DynamicMesh.clear (_ : DynamicMesh) : DynamicMesh := emptyMesh

/-- `vertices_count` from `dynamic_mesh.rs` (also `positions_len` in
`wall_mesh.rs`): number of stored positions. -/
def DynamicMesh.vertices_count (m : DynamicMesh) : ℕ := m.positions.length

/-- `WallMesh::generate_top`: the top face, two triangles, with UVs in the
wall's rotated local frame. -/
def WallMesh.generate_top (m : WallMesh) (wall : Wall)
    (start_left start_right end_left end_right : Vec2) (θ : ℝ) : WallMesh :=
  { positions := m.positions ++
      [⟨start_left.x, HEIGHT, start_left.y⟩, ⟨start_right.x, HEIGHT, start_right.y⟩,
       ⟨end_right.x, HEIGHT, end_right.y⟩, ⟨end_left.x, HEIGHT, end_left.y⟩],
    uvs := m.uvs ++
      [rotate θ (start_left - wall.start), rotate θ (start_right - wall.start),
       rotate θ (end_right - wall.start), rotate θ (end_left - wall.start)],
    normals := m.normals ++ List.replicate 4 ⟨0, 1, 0⟩,
    indices := m.indices ++ [0, 3, 1, 1, 3, 2] }

/-- One translated aperture vertex pushed by `generate_side`:
`quat * position.extend(0) + aperture.translation + (width.x, 0, width.y)`. -/
def apertureVertex (θ : ℝ) (width : Vec2) (ap : Aperture) (p : Vec2) : Vec3 :=
  quatMulVec3 θ ⟨p.x, p.y, 0⟩ + ap.translation + ⟨width.x, 0, width.y⟩

/-- The UV pushed by `generate_side` for an aperture vertex. -/
def apertureUV (θ : ℝ) (wall : Wall) (width : Vec2) (ap : Aperture) (p : Vec2) : Vec2 :=
  let translated := apertureVertex θ width ap p
  let bottom_uv := rotate θ (Vec2.mk translated.x translated.z - wall.start)
  ⟨bottom_uv.x, bottom_uv.y + p.y⟩

/-- The `hole_indices` accumulated by `generate_side`'s aperture loop, starting
from the 4 initial side vertices. -/
def holeIndicesFrom (acc : ℕ) : List Aperture → List ℕ
  | [] => []
  | ap :: rest => acc :: holeIndicesFrom (acc + ap.positions.length) rest

/-- The winding reversal in `generate_side`: every chunk of 3 indices reversed
(a trailing shorter chunk is reversed as well). -/
def reverseTriples : List ℕ → List ℕ
  | a :: b :: c :: rest => c :: b :: a :: reverseTriples rest
  | l => l.reverse

/-- `WallMesh::generate_side`: one side face with the apertures as holes,
triangulated by the external `earcut` (passed as a function parameter modelling
`earcutr::earcut`). -/
def WallMesh.generate_side (earcut : List ℝ → List ℕ → ℕ → List ℕ) (m : WallMesh)
    (wall : Wall) (apertures : Apertures) (start_side end_side width : Vec2) (θ : ℝ)
    (inverse_winding : Prop) : WallMesh :=
  let begin_index := m.positions.length
  let base_positions : List Vec3 :=
    [⟨start_side.x, 0, start_side.y⟩, ⟨end_side.x, 0, end_side.y⟩,
     ⟨end_side.x, HEIGHT, end_side.y⟩, ⟨start_side.x, HEIGHT, start_side.y⟩]
  let start_uv := rotate θ (start_side - wall.start)
  let end_uv := rotate θ (end_side - wall.start)
  let base_uvs : List Vec2 :=
    [start_uv, end_uv, ⟨end_uv.x, end_uv.y + HEIGHT⟩, ⟨start_uv.x, start_uv.y + HEIGHT⟩]
  let normal : Vec3 := ⟨width.x, 0, width.y⟩
  let ap_positions := apertures.flatMap (fun ap => ap.positions.map (apertureVertex θ width ap))
  let ap_uvs := apertures.flatMap (fun ap => ap.positions.map (apertureUV θ wall width ap))
  let new_positions := base_positions ++ ap_positions
  let vertices := new_positions.flatMap (fun p => [p.x, p.y])
  let raw := earcut vertices (holeIndicesFrom 4 apertures) 2
  let idx := if inverse_winding then reverseTriples raw else raw
  { positions := m.positions ++ new_positions,
    uvs := m.uvs ++ base_uvs ++ ap_uvs,
    normals := m.normals ++ List.replicate 4 normal ++ List.replicate ap_positions.length normal,
    indices := m.indices ++ idx.map (fun i => begin_index + i) }

/-- `WallMesh::generate_front`: the flat end-cap quad at the start, facing
opposite the displacement. -/
def WallMesh.generate_front (m : WallMesh) (start_left start_right disp : Vec2) : WallMesh :=
  let begin_index := m.positions.length
  { positions := m.positions ++
      [⟨start_left.x, 0, start_left.y⟩, ⟨start_left.x, HEIGHT, start_left.y⟩,
       ⟨start_right.x, HEIGHT, start_right.y⟩, ⟨start_right.x, 0, start_right.y⟩],
    uvs := m.uvs ++ [⟨0, 0⟩, ⟨0, HEIGHT⟩, ⟨WIDTH, HEIGHT⟩, ⟨WIDTH, 0⟩],
    normals := m.normals ++ List.replicate 4 ⟨-disp.x, 0, -disp.y⟩,
    indices := m.indices ++ [begin_index, begin_index + 1, begin_index + 3,
      begin_index + 1, begin_index + 2, begin_index + 3] }

/-- `WallMesh::generate_back`: the flat end-cap quad at the end, facing along
the displacement. -/
def WallMesh.generate_back (m : WallMesh) (end_left end_right disp : Vec2) : WallMesh :=
  let begin_index := m.positions.length
  { positions := m.positions ++
      [⟨end_left.x, 0, end_left.y⟩, ⟨end_left.x, HEIGHT, end_left.y⟩,
       ⟨end_right.x, HEIGHT, end_right.y⟩, ⟨end_right.x, 0, end_right.y⟩],
    uvs := m.uvs ++ [⟨0, 0⟩, ⟨0, HEIGHT⟩, ⟨WIDTH, HEIGHT⟩, ⟨WIDTH, 0⟩],
    normals := m.normals ++ List.replicate 4 ⟨disp.x, 0, disp.y⟩,
    indices := m.indices ++ [begin_index, begin_index + 3, begin_index + 1,
      begin_index + 1, begin_index + 3, begin_index + 2] }

/-- `WallMesh::generate_start_connection`: the single triangle filling a 3+-way
junction at the start. -/
def WallMesh.generate_start_connection (m : WallMesh) (wall : Wall) : WallMesh :=
  let begin_index := m.positions.length
  { positions := m.positions ++ [⟨wall.start.x, HEIGHT, wall.start.y⟩],
    uvs := m.uvs ++ [⟨0, 0⟩],
    normals := m.normals ++ [⟨0, 1, 0⟩],
    indices := m.indices ++ [1, begin_index, 0] }

/-- `WallMesh::generate_end_connection`: the single triangle filling a 3+-way
junction at the end. -/
def WallMesh.generate_end_connection (m : WallMesh) (wall : Wall) (θ : ℝ) : WallMesh :=
  let begin_index := m.positions.length
  { positions := m.positions ++ [⟨wall.«end».x, HEIGHT, wall.«end».y⟩],
    uvs := m.uvs ++ [rotate θ (wall.«end» - wall.start)],
    normals := m.normals ++ [⟨0, 1, 0⟩],
    indices := m.indices ++ [3, begin_index, 2] }

/-- The `match start_walls` dispatch at the end of `WallMesh::generate`. -/
def applyStartMatch (m : WallMesh) (wall : Wall) (start_walls : MinMaxResult Wall)
    (start_left start_right disp : Vec2) : WallMesh :=
  match start_walls with
  | .oneElement _ => m
  | .noElements => WallMesh.generate_front m start_left start_right disp
  | .minMax _ _ => WallMesh.generate_start_connection m wall

/-- The `match end_walls` dispatch at the end of `WallMesh::generate`. -/
def applyEndMatch (m : WallMesh) (wall : Wall) (end_walls : MinMaxResult Wall)
    (end_left end_right disp : Vec2) (θ : ℝ) : WallMesh :=
  match end_walls with
  | .oneElement _ => m
  | .noElements => WallMesh.generate_back m end_left end_right disp
  | .minMax _ _ => WallMesh.generate_end_connection m wall θ

/-- `WallMesh::generate`: clear, early-out on a degenerate wall, then top face,
the two side faces, and the per-end extra geometry. -/
def WallMesh.generate (earcut : List ℝ → List ℕ → ℕ → List ℕ) (m : WallMesh) (wall : Wall)
    (connections : WallConnections) (apertures : Apertures) : WallMesh :=
  let m0 := DynamicMesh.clear m
  if wall.start = wall.«end» then m0
  else
    let disp := wall.displacement
    let angle := -disp.to_angle
    let width := wall_width disp
    let start_walls := minmax_angles disp .Start connections.start
    let sp := offset_points wall start_walls width
    let end_walls := minmax_angles (-disp) .End connections.«end»
    let ep := offset_points wall.inverse end_walls (-width)
    let inverse_winding := |angle| < Real.pi / 2
    let m1 := WallMesh.generate_top m0 wall sp.1 sp.2 ep.2 ep.1 angle
    let m2 := WallMesh.generate_side earcut m1 wall apertures sp.2 ep.1 (-width) angle
      inverse_winding
    let m3 := WallMesh.generate_side earcut m2 wall apertures sp.1 ep.2 width angle
      (¬inverse_winding)
    let m4 := applyStartMatch m3 wall start_walls sp.1 sp.2 disp
    applyEndMatch m4 wall end_walls ep.2 ep.1 disp angle

/-- The buffer contents after the top face and both side faces of
`WallMesh::generate`, before the per-end dispatch. -/
def wallSides (earcut : List ℝ → List ℕ → ℕ → List ℕ) (wall : Wall)
    (connections : WallConnections) (apertures : Apertures) : WallMesh :=
  let disp := wall.displacement
  let angle := -disp.to_angle
  let width := wall_width disp
  let start_walls := minmax_angles disp .Start connections.start
  let sp := offset_points wall start_walls width
  let end_walls := minmax_angles (-disp) .End connections.«end»
  let ep := offset_points wall.inverse end_walls (-width)
  let inverse_winding := |angle| < Real.pi / 2
  let m1 := WallMesh.generate_top emptyMesh wall sp.1 sp.2 ep.2 ep.1 angle
  let m2 := WallMesh.generate_side earcut m1 wall apertures sp.2 ep.1 (-width) angle
    inverse_winding
  WallMesh.generate_side earcut m2 wall apertures sp.1 ep.2 width angle (¬inverse_winding)

/-- `HEIGHT` from `road_mesh.rs`: small lift above the ground plane. -/
def ROAD_HEIGHT : ℝ := 0.001

/-- Modelled from the spec, section 3: a connection at a spline-network node
(the spline module is outside the provided sources). -/
structure SplineConnection where
  segment : Segment
  point_kind : PointKind

/-- Per-endpoint connection lists of a road segment (`SplineConnections`). -/
structure SplineConnections where
  start : List SplineConnection
  «end» : List SplineConnection

/-- Modelled from the spec, section 4.2: the same per-connection orientation
rule as `orientConnection`, for spline connections. -/
def orientSplineConnection (point_kind : PointKind) (c : SplineConnection) : Segment :=
  match point_kind, c.point_kind with
  | .Start, .End => c.segment.inverse
  | .End, .Start => c.segment
  | .Start, .Start => c.segment
  | .End, .End => c.segment.inverse

/-- Modelled from the spec, section 4.2: `SplineConnections::minmax_angles`
(the spline module is outside the provided sources), the same algorithm as the
wall `minmax_angles`, selecting this endpoint's connection list. -/
def SplineConnections.minmax_angles (connections : SplineConnections) (disp : Vec2)
    (point_kind : PointKind) : MinMaxResult Segment :=
  let conns := match point_kind with
    | .Start => connections.start
    | .End => connections.«end»
  minmaxByKey (normalizedAngle disp) (conns.map (orientSplineConnection point_kind))

/-- Modelled from the spec, section 4.3: `Segment::offset_points`
(`base/src/math/segment.rs` is outside the provided sources): same shape as the
wall `offset_points`, with the neighbors' offset lines built from the
independently supplied `half_width` instead of the fixed wall constant. -/
def Segment.offset_points (segment : Segment) (width_disp : Vec2) (half_width : ℝ)
    (connections : MinMaxResult Segment) : Vec2 × Vec2 :=
  match connections with
  | .noElements => (segment.start + width_disp, segment.start - width_disp)
  | .oneElement other =>
    let other_width := Vec2.scale half_width other.displacement.perp.normalize
    (wall_intersection segment width_disp other (-other_width),
     wall_intersection segment (-width_disp) other.inverse other_width)
  | .minMax mn mx =>
    (wall_intersection segment width_disp mx
       (-(Vec2.scale half_width mx.displacement.perp.normalize)),
     wall_intersection segment (-width_disp) mn.inverse
       (Vec2.scale half_width mn.displacement.perp.normalize))

/-- `generate_surface` from `road_mesh.rs`: the flat road quad at
`ROAD_HEIGHT`, with the V coordinate scaled by the road width. -/
def RoadMesh.generate_surface (mesh : DynamicMesh) (segment : Segment)
    (start_left start_right end_left end_right : Vec2) (θ : ℝ) (width : ℝ) : DynamicMesh :=
  { positions := mesh.positions ++
      [⟨start_left.x, ROAD_HEIGHT, start_left.y⟩, ⟨start_right.x, ROAD_HEIGHT, start_right.y⟩,
       ⟨end_right.x, ROAD_HEIGHT, end_right.y⟩, ⟨end_left.x, ROAD_HEIGHT, end_left.y⟩],
    uvs := mesh.uvs ++
      [⟨0, (rotate θ (start_left - segment.start)).y / width⟩,
       ⟨1, (rotate θ (start_right - segment.start)).y / width⟩,
       ⟨1, (rotate θ (end_right - segment.start)).y / width⟩,
       ⟨0, (rotate θ (end_left - segment.start)).y / width⟩],
    normals := mesh.normals ++ List.replicate 4 ⟨0, 1, 0⟩,
    indices := mesh.indices ++ [0, 3, 1, 1, 3, 2] }

/-- `generate_start_connection` from `road_mesh.rs`: junction-fill triangle at
the start. -/
def RoadMesh.generate_start_connection (mesh : DynamicMesh) (segment : Segment) : DynamicMesh :=
  let vertices_start := mesh.positions.length
  { positions := mesh.positions ++ [⟨segment.start.x, ROAD_HEIGHT, segment.start.y⟩],
    uvs := mesh.uvs ++ [⟨0.5, 0⟩],
    normals := mesh.normals ++ [⟨0, 1, 0⟩],
    indices := mesh.indices ++ [1, vertices_start, 0] }

/-- `generate_end_connection` from `road_mesh.rs`: junction-fill triangle at
the end. -/
def RoadMesh.generate_end_connection (mesh : DynamicMesh) (segment : Segment) (θ : ℝ)
    (width : ℝ) : DynamicMesh :=
  let vertices_start := mesh.positions.length
  { positions := mesh.positions ++ [⟨segment.«end».x, ROAD_HEIGHT, segment.«end».y⟩],
    uvs := mesh.uvs ++ [⟨0.5, (rotate θ (segment.«end» - segment.start)).y / width⟩],
    normals := mesh.normals ++ [⟨0, 1, 0⟩],
    indices := mesh.indices ++ [3, vertices_start, 2] }

/-- `generate` from `road_mesh.rs`: clear, early-out on a degenerate segment,
then the surface quad and junction-fill triangles. -/
def RoadMesh.generate (mesh : DynamicMesh) (segment : Segment)
    (connections : SplineConnections) (half_width : ℝ) : DynamicMesh :=
  let m0 := DynamicMesh.clear mesh
  if segment.start = segment.«end» then m0
  else
    let disp := segment.displacement
    let angle := -disp.to_angle
    let width_disp := Vec2.scale half_width disp.perp.normalize
    let θ := angle + Real.pi / 2
    let start_connections := SplineConnections.minmax_angles connections disp .Start
    let sp := Segment.offset_points segment width_disp half_width start_connections
    let end_connections := SplineConnections.minmax_angles connections (-disp) .End
    let ep := Segment.offset_points segment.inverse (-width_disp) half_width end_connections
    let width := half_width * 2
    let m1 := RoadMesh.generate_surface m0 segment sp.1 sp.2 ep.2 ep.1 θ width
    let m2 := match start_connections with
      | .minMax _ _ => RoadMesh.generate_start_connection m1 segment
      | _ => m1
    match end_connections with
    | .minMax _ _ => RoadMesh.generate_end_connection m2 segment θ width
    | _ => m2

/-- C6: generation is deterministic and independent of the output buffer's
prior contents; for fixed segment, connections and apertures, any two wall or
road generation calls produce identical buffers, and in particular calling
generate twice in succession yields identical buffers. -/
theorem generation_deterministic (earcut : List ℝ → List ℕ → ℕ → List ℕ) :
    (∀ m₁ m₂ wall conns aps,
      WallMesh.generate earcut m₁ wall conns aps = WallMesh.generate earcut m₂ wall conns aps) ∧
    (∀ m₁ m₂ segment conns half_width,
      RoadMesh.generate m₁ segment conns half_width
        = RoadMesh.generate m₂ segment conns half_width) ∧
    (∀ m wall conns aps,
      WallMesh.generate earcut (WallMesh.generate earcut m wall conns aps) wall conns aps
        = WallMesh.generate earcut m wall conns aps) ∧
    (∀ m segment conns half_width,
      RoadMesh.generate (RoadMesh.generate m segment conns half_width) segment conns half_width
        = RoadMesh.generate m segment conns half_width) :=
  ⟨fun _ _ _ _ _ => rfl, fun _ _ _ _ _ => rfl, fun _ _ _ _ => rfl, fun _ _ _ _ => rfl⟩

/-- C5: for a degenerate segment (start equals end) both generators succeed and
leave the buffer with all four sequences empty, whatever the buffer held
before. -/
theorem degenerate_empty :
    (∀ (earcut : List ℝ → List ℕ → ℕ → List ℕ) m wall conns aps,
      wall.start = wall.«end» →
        (WallMesh.generate earcut m wall conns aps).positions = [] ∧
        (WallMesh.generate earcut m wall conns aps).uvs = [] ∧
        (WallMesh.generate earcut m wall conns aps).normals = [] ∧
        (WallMesh.generate earcut m wall conns aps).indices = []) ∧
    (∀ m segment conns half_width,
      segment.start = segment.«end» →
        (RoadMesh.generate m segment conns half_width).positions = [] ∧
        (RoadMesh.generate m segment conns half_width).uvs = [] ∧
        (RoadMesh.generate m segment conns half_width).normals = [] ∧
        (RoadMesh.generate m segment conns half_width).indices = []) := by
  constructor
  · intro earcut m wall conns aps h
    simp [WallMesh.generate, if_pos h, DynamicMesh.clear, emptyMesh]
  · intro m segment conns half_width h
    simp [RoadMesh.generate, if_pos h, DynamicMesh.clear, emptyMesh]

/-- Witness for C5 at a concrete degenerate wall and road segment. -/
theorem degenerate_empty_witness :
    ((Segment.mk ⟨1, 2⟩ ⟨1, 2⟩).start = (Segment.mk ⟨1, 2⟩ ⟨1, 2⟩).«end») ∧
    (WallMesh.generate (fun _ _ _ => []) emptyMesh (Segment.mk ⟨1, 2⟩ ⟨1, 2⟩) ⟨[], []⟩
        []).positions = [] ∧
    (RoadMesh.generate emptyMesh (Segment.mk ⟨1, 2⟩ ⟨1, 2⟩) ⟨[], []⟩ 1).positions = [] := by
  refine ⟨rfl, ?_, ?_⟩
  · exact (degenerate_empty.1 (fun _ _ _ => []) emptyMesh _ ⟨[], []⟩ [] rfl).1
  · exact (degenerate_empty.2 emptyMesh _ ⟨[], []⟩ 1 rfl).1

/-- C2: `offset_points` with no neighbors returns the plain perpendicular
offsets of the start point; with two bounding neighbors, the left point is the
intersection of the segment's left offset line with the max-angle neighbor's
offset line and the right point the intersection of the segment's right offset
line with the min-angle neighbor's inverted offset line; and whenever an
offset-line intersection finds the lines parallel, `wall_intersection` falls
back to the start point translated by the offset used for that side. -/
theorem offset_points_cases :
    (∀ wall width, offset_points wall .noElements width
        = (wall.start + width, wall.start - width)) ∧
    (∀ wall width mn mx,
      offset_points wall (.minMax mn mx) width =
        (((Line.with_offset wall.start wall.«end» width).intersection
            (Line.with_offset mx.start mx.«end» (-(wall_width mx.displacement)))).getD
          (wall.start + width),
         ((Line.with_offset wall.start wall.«end» (-width)).intersection
            (Line.with_offset mn.«end» mn.start (wall_width mn.displacement))).getD
          (wall.start + -width))) ∧
    (∀ wall width other_wall other_width,
      (Line.with_offset wall.start wall.«end» width).intersection
          (Line.with_offset other_wall.start other_wall.«end» other_width) = none →
        wall_intersection wall width other_wall other_width = wall.start + width) := by
  refine ⟨fun _ _ => rfl, fun _ _ _ _ => rfl, ?_⟩
  intro wall width other_wall other_width h
  simp [wall_intersection, h]

/-- Witness for C2's parallel-fallback clause on two concrete parallel walls. -/
theorem offset_points_cases_witness :
    ((Line.with_offset (Segment.mk ⟨0, 0⟩ ⟨1, 0⟩).start (Segment.mk ⟨0, 0⟩ ⟨1, 0⟩).«end»
          ⟨0, 1⟩).intersection
        (Line.with_offset (Segment.mk ⟨0, 2⟩ ⟨1, 2⟩).start (Segment.mk ⟨0, 2⟩ ⟨1, 2⟩).«end»
          ⟨0, 1⟩) = none) ∧
    wall_intersection (Segment.mk ⟨0, 0⟩ ⟨1, 0⟩) ⟨0, 1⟩ (Segment.mk ⟨0, 2⟩ ⟨1, 2⟩) ⟨0, 1⟩
      = (Segment.mk ⟨0, 0⟩ ⟨1, 0⟩).start + ⟨0, 1⟩ := by
  have h : (Line.with_offset (Segment.mk ⟨0, 0⟩ ⟨1, 0⟩).start (Segment.mk ⟨0, 0⟩ ⟨1, 0⟩).«end»
        ⟨0, 1⟩).intersection
      (Line.with_offset (Segment.mk ⟨0, 2⟩ ⟨1, 2⟩).start (Segment.mk ⟨0, 2⟩ ⟨1, 2⟩).«end»
        ⟨0, 1⟩) = none := by
    simp [Line.with_offset, Line.intersection, Vec2.perp_dot]
  exact ⟨h, offset_points_cases.2.2 _ _ _ _ h⟩

/-- C8: with exactly one neighbor, each boundary point is the intersection of
this segment's offset line on that side with the opposite side's offset line of
the neighbor, the neighbor's offset vector being computed from the neighbor's
own displacement and its own half-width (the fixed wall half-width for walls,
the independently supplied `half_width` for roads), with the plain offset point
as the parallel fallback. -/
theorem one_neighbor_offset :
    (∀ wall width other_wall,
      offset_points wall (.oneElement other_wall) width =
        (((Line.with_offset wall.start wall.«end» width).intersection
            (Line.with_offset other_wall.start other_wall.«end»
              (-(wall_width other_wall.displacement)))).getD (wall.start + width),
         ((Line.with_offset wall.start wall.«end» (-width)).intersection
            (Line.with_offset other_wall.«end» other_wall.start
              (wall_width other_wall.displacement))).getD (wall.start + -width))) ∧
    (∀ segment width_disp half_width other,
      Segment.offset_points segment width_disp half_width (.oneElement other) =
        (((Line.with_offset segment.start segment.«end» width_disp).intersection
            (Line.with_offset other.start other.«end»
              (-(Vec2.scale half_width other.displacement.perp.normalize)))).getD
          (segment.start + width_disp),
         ((Line.with_offset segment.start segment.«end» (-width_disp)).intersection
            (Line.with_offset other.«end» other.start
              (Vec2.scale half_width other.displacement.perp.normalize))).getD
          (segment.start + -width_disp))) :=
  ⟨fun _ _ _ => rfl, fun _ _ _ _ => rfl⟩

theorem minmaxGo_spec {α : Type} (key : α → ℝ) :
    ∀ (l : List α) (mn mx : α),
      ((minmaxGo key mn mx l).1 = mn ∨ (minmaxGo key mn mx l).1 ∈ l) ∧
      ((minmaxGo key mn mx l).2 = mx ∨ (minmaxGo key mn mx l).2 ∈ l) ∧
      key (minmaxGo key mn mx l).1 ≤ key mn ∧
      key mx ≤ key (minmaxGo key mn mx l).2 ∧
      ∀ z ∈ l, key (minmaxGo key mn mx l).1 ≤ key z ∧ key z ≤ key (minmaxGo key mn mx l).2 := by
  intro l
  induction l with
  | nil => exact fun mn mx => ⟨Or.inl rfl, Or.inl rfl, le_refl _, le_refl _, by simp⟩
  | cons z zs ih =>
    intro mn mx
    set mn' := if key z < key mn then z else mn with hmn
    set mx' := if key mx ≤ key z then z else mx with hmx
    have hgo : minmaxGo key mn mx (z :: zs) = minmaxGo key mn' mx' zs := rfl
    obtain ⟨h1, h2, h3, h4, h5⟩ := ih mn' mx'
    have hmn_le : key mn' ≤ key mn := by
      rw [hmn]; split
      · exact le_of_lt (by assumption)
      · exact le_refl _
    have hmn_le_z : key mn' ≤ key z := by
      rw [hmn]; split
      · exact le_refl _
      · exact le_of_not_lt (by assumption)
    have hmx_ge : key mx ≤ key mx' := by
      rw [hmx]; split
      · exact by assumption
      · exact le_refl _
    have hmx_ge_z : key z ≤ key mx' := by
      rw [hmx]; split
      · exact le_refl _
      · exact le_of_lt (lt_of_not_le (by assumption))
    refine ⟨?_, ?_, ?_, ?_, ?_⟩
    · rw [hgo]
      rcases h1 with h | h
      · rw [h, hmn]; split
        · exact Or.inr (List.mem_cons_self _ _)
        · exact Or.inl rfl
      · exact Or.inr (List.mem_cons_of_mem _ h)
    · rw [hgo]
      rcases h2 with h | h
      · rw [h, hmx]; split
        · exact Or.inr (List.mem_cons_self _ _)
        · exact Or.inl rfl
      · exact Or.inr (List.mem_cons_of_mem _ h)
    · rw [hgo]; exact le_trans h3 hmn_le
    · rw [hgo]; exact le_trans hmx_ge h4
    · rw [hgo]
      intro w hw
      rcases List.mem_cons.mp hw with h | h
      · subst h
        exact ⟨le_trans h3 hmn_le_z, le_trans hmx_ge_z h4⟩
      · exact h5 w h

theorem minmaxByKey_two_or_more {α : Type} (key : α → ℝ) (x y : α) (rest : List α) :
    ∃ a b, minmaxByKey key (x :: y :: rest) = .minMax a b ∧
      a ∈ x :: y :: rest ∧ b ∈ x :: y :: rest ∧
      ∀ z ∈ x :: y :: rest, key a ≤ key z ∧ key z ≤ key b := by
  set p := if key y < key x then (y, x) else (x, y) with hp
  have hmem1 : p.1 = x ∨ p.1 = y := by rw [hp]; split <;> simp
  have hmem2 : p.2 = x ∨ p.2 = y := by rw [hp]; split <;> simp
  have hp1x : key p.1 ≤ key x := by
    rw [hp]; split
    · exact le_of_lt (by assumption)
    · exact le_refl _
  have hp1y : key p.1 ≤ key y := by
    rw [hp]; split
    · exact le_refl _
    · exact le_of_not_lt (by assumption)
  have hp2x : key x ≤ key p.2 := by
    rw [hp]; split
    · exact le_refl _
    · exact le_of_not_lt (by assumption)
  have hp2y : key y ≤ key p.2 := by
    rw [hp]; split
    · exact le_of_lt (by assumption)
    · exact le_refl _
  obtain ⟨h1, h2, h3, h4, h5⟩ := minmaxGo_spec key rest p.1 p.2
  refine ⟨(minmaxGo key p.1 p.2 rest).1, (minmaxGo key p.1 p.2 rest).2, rfl, ?_, ?_, ?_⟩
  · rcases h1 with h | h
    · rw [h]; rcases hmem1 with h' | h' <;> simp [h']
    · simp [List.mem_cons_of_mem, h]
  · rcases h2 with h | h
    · rw [h]; rcases hmem2 with h' | h' <;> simp [h']
    · simp [List.mem_cons_of_mem, h]
  · intro z hz
    rcases List.mem_cons.mp hz with h | hz'
    · subst h; exact ⟨le_trans h3 hp1x, le_trans hp2x h4⟩
    rcases List.mem_cons.mp hz' with h | hz''
    · subst h; exact ⟨le_trans h3 hp1y, le_trans hp2y h4⟩
    · exact h5 z hz''

/-- C1: `minmax_angles` returns no elements for an empty connection list, the
single (possibly inverted) neighbor for a singleton list, and otherwise a pair
of oriented neighbors achieving the minimal and maximal normalized angle
relative to `disp`; each neighbor is inverted exactly when it touches the
shared point at its `End` endpoint, and the key is the signed angle shifted by
`2*pi` when negative, which lands in `[0, 2*pi)`. -/
theorem minmax_angles_spec :
    (∀ disp point_kind, minmax_angles disp point_kind [] = .noElements) ∧
    (∀ disp point_kind c,
      minmax_angles disp point_kind [c] = .oneElement (orientConnection point_kind c)) ∧
    (∀ point_kind c, orientConnection point_kind c
        = if c.point_kind = .End then c.wall.inverse else c.wall) ∧
    (∀ disp point_kind c₁ c₂ cs, ∃ a b,
      minmax_angles disp point_kind (c₁ :: c₂ :: cs) = .minMax a b ∧
      a ∈ (c₁ :: c₂ :: cs).map (orientConnection point_kind) ∧
      b ∈ (c₁ :: c₂ :: cs).map (orientConnection point_kind) ∧
      ∀ w ∈ (c₁ :: c₂ :: cs).map (orientConnection point_kind),
        normalizedAngle disp a ≤ normalizedAngle disp w ∧
        normalizedAngle disp w ≤ normalizedAngle disp b) ∧
    (∀ disp w,
      normalizedAngle disp w =
        (if (Segment.displacement w).angle_between disp < 0 then
          (Segment.displacement w).angle_between disp + 2 * Real.pi
        else (Segment.displacement w).angle_between disp) ∧
      0 ≤ normalizedAngle disp w ∧ normalizedAngle disp w < 2 * Real.pi) := by
  refine ⟨fun _ _ => rfl, fun _ _ _ => rfl, ?_, ?_, ?_⟩
  · intro point_kind c
    cases point_kind <;> cases hc : c.point_kind <;> simp [orientConnection, hc]
  · intro disp point_kind c₁ c₂ cs
    obtain ⟨a, b, heq, ha, hb, hbound⟩ :=
      minmaxByKey_two_or_more (normalizedAngle disp) (orientConnection point_kind c₁)
        (orientConnection point_kind c₂) (cs.map (orientConnection point_kind))
    exact ⟨a, b, heq, by simpa using ha, by simpa using hb, fun w hw => hbound w (by simpa using hw)⟩
  · intro disp w
    have harg_le : (Segment.displacement w).angle_between disp ≤ Real.pi :=
      Complex.arg_le_pi _
    have harg_gt : -Real.pi < (Segment.displacement w).angle_between disp :=
      Complex.neg_pi_lt_arg _
    have hpi : (0 : ℝ) < Real.pi := Real.pi_pos
    refine ⟨rfl, ?_, ?_⟩
    · rw [normalizedAngle]
      split
      · linarith
      · linarith [le_of_not_lt (by assumption : ¬(Segment.displacement w).angle_between disp < 0)]
    · rw [normalizedAngle]
      split
      · linarith
      · linarith

/-- Witness for C1 at a concrete two-element connection list: the result is a
`minMax` pair drawn from the oriented connections. -/
theorem minmax_angles_spec_witness :
    ∃ a b,
      minmax_angles ⟨1, 0⟩ .Start
          [⟨Segment.mk ⟨0, 0⟩ ⟨0, 1⟩, .Start⟩, ⟨Segment.mk ⟨0, 1⟩ ⟨0, 0⟩, .End⟩] = .minMax a b ∧
      a ∈ ([⟨Segment.mk ⟨0, 0⟩ ⟨0, 1⟩, .Start⟩,
            ⟨Segment.mk ⟨0, 1⟩ ⟨0, 0⟩, .End⟩] : List WallConnection).map (orientConnection .Start) ∧
      b ∈ ([⟨Segment.mk ⟨0, 0⟩ ⟨0, 1⟩, .Start⟩,
            ⟨Segment.mk ⟨0, 1⟩ ⟨0, 0⟩, .End⟩] : List WallConnection).map (orientConnection .Start) ∧
      ∀ w ∈ ([⟨Segment.mk ⟨0, 0⟩ ⟨0, 1⟩, .Start⟩,
              ⟨Segment.mk ⟨0, 1⟩ ⟨0, 0⟩, .End⟩] : List WallConnection).map
            (orientConnection .Start),
        normalizedAngle ⟨1, 0⟩ a ≤ normalizedAngle ⟨1, 0⟩ w ∧
        normalizedAngle ⟨1, 0⟩ w ≤ normalizedAngle ⟨1, 0⟩ b := by
  simpa using minmax_angles_spec.2.2.2.1 ⟨1, 0⟩ .Start ⟨Segment.mk ⟨0, 0⟩ ⟨0, 1⟩, .Start⟩
    ⟨Segment.mk ⟨0, 1⟩ ⟨0, 0⟩, .End⟩ []

theorem applyStartMatch_positions_append (m : WallMesh) (wall : Wall)
    (sw : MinMaxResult Wall) (sl sr disp : Vec2) :
    ∃ t, (applyStartMatch m wall sw sl sr disp).positions = m.positions ++ t := by
  cases sw with
  | noElements => exact ⟨_, rfl⟩
  | oneElement w => exact ⟨[], by simp [applyStartMatch]⟩
  | minMax a b => exact ⟨_, rfl⟩

theorem applyEndMatch_positions_append (m : WallMesh) (wall : Wall)
    (ew : MinMaxResult Wall) (el er disp : Vec2) (θ : ℝ) :
    ∃ t, (applyEndMatch m wall ew el er disp θ).positions = m.positions ++ t := by
  cases ew with
  | noElements => exact ⟨_, rfl⟩
  | oneElement w => exact ⟨[], by simp [applyEndMatch]⟩
  | minMax a b => exact ⟨_, rfl⟩

theorem wallSides_positions_head (earcut : List ℝ → List ℕ → ℕ → List ℕ) (wall : Wall)
    (conns : WallConnections) (aps : Apertures) :
    ∃ r, (wallSides earcut wall conns aps).positions =
      ⟨(offset_points wall (minmax_angles wall.displacement .Start conns.start)
          (wall_width wall.displacement)).1.x, HEIGHT,
        (offset_points wall (minmax_angles wall.displacement .Start conns.start)
          (wall_width wall.displacement)).1.y⟩ ::
      ⟨(offset_points wall (minmax_angles wall.displacement .Start conns.start)
          (wall_width wall.displacement)).2.x, HEIGHT,
        (offset_points wall (minmax_angles wall.displacement .Start conns.start)
          (wall_width wall.displacement)).2.y⟩ ::
      ⟨(offset_points wall.inverse (minmax_angles (-wall.displacement) .End conns.«end»)
          (-(wall_width wall.displacement))).1.x, HEIGHT,
        (offset_points wall.inverse (minmax_angles (-wall.displacement) .End conns.«end»)
          (-(wall_width wall.displacement))).1.y⟩ ::
      ⟨(offset_points wall.inverse (minmax_angles (-wall.displacement) .End conns.«end»)
          (-(wall_width wall.displacement))).2.x, HEIGHT,
        (offset_points wall.inverse (minmax_angles (-wall.displacement) .End conns.«end»)
          (-(wall_width wall.displacement))).2.y⟩ :: r := ⟨_, rfl⟩

theorem take_four_cons {α : Type} (a b c d : α) (r : List α) :
    (a :: b :: c :: d :: r).take 4 = [a, b, c, d] := rfl

/-- C3: for a non-degenerate wall, the generator's output is the top and side
faces followed by the per-end dispatch; at an end with exactly one neighbor
nothing extra is emitted, at an end with no neighbors a flat 4-vertex,
2-triangle end-cap quad facing outward is emitted, and at an end with two or
more bounding neighbors exactly one triangle is emitted, joining the two
adjacent top-face corner vertices (indices 0,1 at the start, 2,3 at the end,
which are the first four emitted positions) with a newly pushed vertex at the
shared endpoint. -/
theorem wall_end_geometry (earcut : List ℝ → List ℕ → ℕ → List ℕ) (m : WallMesh)
    (wall : Wall) (conns : WallConnections) (aps : Apertures)
    (disp width : Vec2) (angle : ℝ) (sw ew : MinMaxResult Wall) (sp ep : Vec2 × Vec2)
    (base afterStart out : WallMesh)
    (h : wall.start ≠ wall.«end»)
    (hdisp : disp = wall.displacement)
    (hangle : angle = -disp.to_angle)
    (hwidth : width = wall_width disp)
    (hsw : sw = minmax_angles disp .Start conns.start)
    (hew : ew = minmax_angles (-disp) .End conns.«end»)
    (hsp : sp = offset_points wall sw width)
    (hep : ep = offset_points wall.inverse ew (-width))
    (hbase : base = wallSides earcut wall conns aps)
    (hafter : afterStart = applyStartMatch base wall sw sp.1 sp.2 disp)
    (hout : out = WallMesh.generate earcut m wall conns aps) :
    (out = applyEndMatch afterStart wall ew ep.2 ep.1 disp angle) ∧
    (out.positions.take 4 =
      [⟨sp.1.x, HEIGHT, sp.1.y⟩, ⟨sp.2.x, HEIGHT, sp.2.y⟩,
       ⟨ep.1.x, HEIGHT, ep.1.y⟩, ⟨ep.2.x, HEIGHT, ep.2.y⟩]) ∧
    (∀ c, conns.start = [c] → afterStart = base) ∧
    (∀ c, conns.«end» = [c] →
      applyEndMatch afterStart wall ew ep.2 ep.1 disp angle = afterStart) ∧
    (conns.start = [] →
      afterStart.positions = base.positions ++
        [⟨sp.1.x, 0, sp.1.y⟩, ⟨sp.1.x, HEIGHT, sp.1.y⟩,
         ⟨sp.2.x, HEIGHT, sp.2.y⟩, ⟨sp.2.x, 0, sp.2.y⟩] ∧
      afterStart.indices = base.indices ++
        [base.positions.length, base.positions.length + 1, base.positions.length + 3,
         base.positions.length + 1, base.positions.length + 2, base.positions.length + 3] ∧
      afterStart.normals = base.normals ++ List.replicate 4 ⟨-disp.x, 0, -disp.y⟩) ∧
    (conns.«end» = [] →
      (applyEndMatch afterStart wall ew ep.2 ep.1 disp angle).positions =
        afterStart.positions ++
          [⟨ep.2.x, 0, ep.2.y⟩, ⟨ep.2.x, HEIGHT, ep.2.y⟩,
           ⟨ep.1.x, HEIGHT, ep.1.y⟩, ⟨ep.1.x, 0, ep.1.y⟩] ∧
      (applyEndMatch afterStart wall ew ep.2 ep.1 disp angle).indices =
        afterStart.indices ++
          [afterStart.positions.length, afterStart.positions.length + 3,
           afterStart.positions.length + 1, afterStart.positions.length + 1,
           afterStart.positions.length + 3, afterStart.positions.length + 2] ∧
      (applyEndMatch afterStart wall ew ep.2 ep.1 disp angle).normals =
        afterStart.normals ++ List.replicate 4 ⟨disp.x, 0, disp.y⟩) ∧
    (2 ≤ conns.start.length →
      afterStart.positions = base.positions ++ [⟨wall.start.x, HEIGHT, wall.start.y⟩] ∧
      afterStart.indices = base.indices ++ [1, base.positions.length, 0]) ∧
    (2 ≤ conns.«end».length →
      (applyEndMatch afterStart wall ew ep.2 ep.1 disp angle).positions =
        afterStart.positions ++ [⟨wall.«end».x, HEIGHT, wall.«end».y⟩] ∧
      (applyEndMatch afterStart wall ew ep.2 ep.1 disp angle).indices =
        afterStart.indices ++ [3, afterStart.positions.length, 2]) := by
  subst hdisp hangle hwidth hsw hew hsp hep hbase hafter hout
  have hgen : WallMesh.generate earcut m wall conns aps =
      applyEndMatch
        (applyStartMatch (wallSides earcut wall conns aps) wall
          (minmax_angles wall.displacement .Start conns.start)
          (offset_points wall (minmax_angles wall.displacement .Start conns.start)
            (wall_width wall.displacement)).1
          (offset_points wall (minmax_angles wall.displacement .Start conns.start)
            (wall_width wall.displacement)).2
          wall.displacement)
        wall (minmax_angles (-wall.displacement) .End conns.«end»)
        (offset_points wall.inverse (minmax_angles (-wall.displacement) .End conns.«end»)
          (-(wall_width wall.displacement))).2
        (offset_points wall.inverse (minmax_angles (-wall.displacement) .End conns.«end»)
          (-(wall_width wall.displacement))).1
        wall.displacement (-(Segment.displacement wall).to_angle) := by
    simp only [WallMesh.generate, wallSides, DynamicMesh.clear]
    rw [if_neg h]
  refine ⟨hgen, ?_, ?_, ?_, ?_, ?_, ?_, ?_⟩
  · obtain ⟨r, hr⟩ := wallSides_positions_head earcut wall conns aps
    obtain ⟨t1, ht1⟩ := applyStartMatch_positions_append (wallSides earcut wall conns aps) wall
      (minmax_angles wall.displacement .Start conns.start) _ _ wall.displacement
    obtain ⟨t2, ht2⟩ := applyEndMatch_positions_append _ wall
      (minmax_angles (-wall.displacement) .End conns.«end») _ _ wall.displacement
      (-(Segment.displacement wall).to_angle)
    rw [hgen, ht2, ht1, hr]
    simp only [List.cons_append, List.append_assoc]
    exact take_four_cons _ _ _ _ _
  · intro c hc
    rw [hc]
    rfl
  · intro c hc
    rw [hc]
    rfl
  · intro hc
    rw [hc]
    refine ⟨?_, ?_, ?_⟩ <;>
      simp [applyStartMatch, minmax_angles, minmaxByKey, WallMesh.generate_front]
  · intro hc
    rw [hc]
    refine ⟨?_, ?_, ?_⟩ <;>
      simp [applyEndMatch, minmax_angles, minmaxByKey, WallMesh.generate_back]
  · intro hlen
    obtain ⟨c₁, l₁, hc⟩ := List.exists_cons_of_ne_nil
      (List.ne_nil_of_length_pos (by omega) : conns.start ≠ [])
    have hl₁ : l₁ ≠ [] := by
      intro hnil
      rw [hc, hnil] at hlen
      simp at hlen
    obtain ⟨c₂, l₂, hc₂⟩ := List.exists_cons_of_ne_nil hl₁
    rw [hc, hc₂]
    refine ⟨?_, ?_⟩ <;>
      simp [applyStartMatch, minmax_angles, minmaxByKey, WallMesh.generate_start_connection]
  · intro hlen
    obtain ⟨c₁, l₁, hc⟩ := List.exists_cons_of_ne_nil
      (List.ne_nil_of_length_pos (by omega) : conns.«end» ≠ [])
    have hl₁ : l₁ ≠ [] := by
      intro hnil
      rw [hc, hnil] at hlen
      simp at hlen
    obtain ⟨c₂, l₂, hc₂⟩ := List.exists_cons_of_ne_nil hl₁
    rw [hc, hc₂]
    refine ⟨?_, ?_⟩ <;>
      simp [applyEndMatch, minmax_angles, minmaxByKey, WallMesh.generate_end_connection]

/-- Concrete wall from (0,0) to (4,0) used by witnesses (spec section 8). -/
def W0 : Wall := ⟨⟨0, 0⟩, ⟨4, 0⟩⟩

/-- Trivial triangulator instantiation used by witnesses. -/
def E0 : List ℝ → List ℕ → ℕ → List ℕ := fun _ _ _ => []

/-- Empty connection lists used by witnesses. -/
def C0 : WallConnections := ⟨[], []⟩

/-- Two start connections (a 3-way junction) used by witnesses. -/
def CJ : WallConnections :=
  ⟨[⟨⟨⟨0, 0⟩, ⟨0, 1⟩⟩, .Start⟩, ⟨⟨⟨0, 0⟩, ⟨1, 1⟩⟩, .Start⟩], []⟩

theorem W0_nondegenerate : W0.start ≠ W0.«end» := by
  intro hh
  have hx : (0 : ℝ) = 4 := congrArg Vec2.x hh
  norm_num at hx

/-- Witness for C3 at the concrete wall `W0` with a 3-way junction at its
start: the junction fill is a single triangle joining top-face corners 0 and 1
with the newly pushed shared-endpoint vertex. -/
theorem wall_end_geometry_witness :
    (W0.start ≠ W0.«end») ∧
    ((applyStartMatch (wallSides E0 W0 CJ []) W0
        (minmax_angles W0.displacement .Start CJ.start)
        (offset_points W0 (minmax_angles W0.displacement .Start CJ.start)
          (wall_width W0.displacement)).1
        (offset_points W0 (minmax_angles W0.displacement .Start CJ.start)
          (wall_width W0.displacement)).2
        W0.displacement).positions =
      (wallSides E0 W0 CJ []).positions ++ [⟨W0.start.x, HEIGHT, W0.start.y⟩] ∧
     (applyStartMatch (wallSides E0 W0 CJ []) W0
        (minmax_angles W0.displacement .Start CJ.start)
        (offset_points W0 (minmax_angles W0.displacement .Start CJ.start)
          (wall_width W0.displacement)).1
        (offset_points W0 (minmax_angles W0.displacement .Start CJ.start)
          (wall_width W0.displacement)).2
        W0.displacement).indices =
      (wallSides E0 W0 CJ []).indices ++ [1, (wallSides E0 W0 CJ []).positions.length, 0]) := by
  refine ⟨W0_nondegenerate, ?_⟩
  have h := wall_end_geometry E0 emptyMesh W0 CJ [] _ _ _ _ _ _ _ _ _ _
    W0_nondegenerate rfl rfl rfl rfl rfl rfl rfl rfl rfl rfl
  exact h.2.2.2.2.2.2.1 (by norm_num [CJ])

/-- The buffer well-formedness invariant: UVs and normals in lockstep with
positions, and all triangle indices in range. -/
def Locked (m : DynamicMesh) : Prop :=
  m.uvs.length = m.positions.length ∧ m.normals.length = m.positions.length ∧
  ∀ i ∈ m.indices, i < m.positions.length

theorem locked_empty : Locked emptyMesh := ⟨rfl, rfl, by simp [emptyMesh]⟩

theorem length_reverseTriples : ∀ l : List ℕ, (reverseTriples l).length = l.length
  | [] => rfl
  | [_] => rfl
  | [_, _] => rfl
  | a :: b :: c :: rest => by
    show (c :: b :: a :: reverseTriples rest).length = _
    simp [length_reverseTriples rest]

theorem mem_reverseTriples : ∀ (l : List ℕ) (i : ℕ), i ∈ reverseTriples l → i ∈ l
  | [], _ => fun h => h
  | [_], _ => fun h => h
  | [a, b], i => fun h => by
    have h' : i ∈ [b, a] := h
    simp at h' ⊢
    tauto
  | a :: b :: c :: rest, i => fun h => by
    have h' : i ∈ c :: b :: a :: reverseTriples rest := h
    simp at h' ⊢
    have := mem_reverseTriples rest i
    tauto

theorem length_flatMap_pair : ∀ l : List Vec3, (l.flatMap fun p => [p.x, p.y]).length = 2 * l.length
  | [] => rfl
  | p :: ps => by
    simp only [List.flatMap_cons, List.length_append, length_flatMap_pair ps, List.length_cons]
    simp
    omega

theorem mem_ite_reverseTriples (c : Prop) (l : List ℕ) (j : ℕ)
    (h : j ∈ if c then reverseTriples l else l) : j ∈ l := by
  rcases Classical.em c with hc | hc
  · rw [if_pos hc] at h
    exact mem_reverseTriples l j h
  · rwa [if_neg hc] at h

theorem ap_uvs_length (θ : ℝ) (wall : Wall) (width : Vec2) (aps : Apertures) :
    (aps.flatMap fun ap => ap.positions.map (apertureUV θ wall width ap)).length
      = (aps.flatMap fun ap => ap.positions.map (apertureVertex θ width ap)).length := by
  induction aps with
  | nil => rfl
  | cons ap rest ih => simp [List.flatMap_cons, ih]

theorem locked_generate_top (m : WallMesh) (wall : Wall) (sl sr el er : Vec2) (θ : ℝ)
    (h : Locked m) :
    Locked (WallMesh.generate_top m wall sl sr el er θ) ∧
    (WallMesh.generate_top m wall sl sr el er θ).positions.length = m.positions.length + 4 := by
  obtain ⟨h1, h2, h3⟩ := h
  refine ⟨⟨?_, ?_, ?_⟩, ?_⟩
  · simp [WallMesh.generate_top, h1]
  · simp [WallMesh.generate_top, h2]
  · intro i hi
    simp only [WallMesh.generate_top, List.mem_append] at hi
    simp only [WallMesh.generate_top, List.length_append, List.length_cons]
    rcases hi with hi | hi
    · have := h3 i hi
      simp only [List.length_nil]
      omega
    · simp at hi
      simp only [List.length_nil]
      omega
  · simp [WallMesh.generate_top]

theorem locked_generate_side (earcut : List ℝ → List ℕ → ℕ → List ℕ)
    (hE : ∀ vs hs d, ∀ i ∈ earcut vs hs d, i < vs.length / 2)
    (m : WallMesh) (wall : Wall) (aps : Apertures) (ss es width : Vec2) (θ : ℝ) (iw : Prop)
    (h : Locked m) :
    Locked (WallMesh.generate_side earcut m wall aps ss es width θ iw) ∧
    m.positions.length + 4 ≤
      (WallMesh.generate_side earcut m wall aps ss es width θ iw).positions.length := by
  obtain ⟨h1, h2, h3⟩ := h
  have hap := ap_uvs_length θ wall width aps
  refine ⟨⟨?_, ?_, ?_⟩, ?_⟩
  · simp [WallMesh.generate_side, h1, hap]
  · simp [WallMesh.generate_side, h2]
  · intro i hi
    simp only [WallMesh.generate_side, List.mem_append, List.mem_map] at hi
    simp only [WallMesh.generate_side, List.length_append, List.length_cons]
    rcases hi with hi | ⟨j, hj, rfl⟩
    · have := h3 i hi
      simp only [List.length_nil]
      omega
    · have hj' := mem_ite_reverseTriples _ _ _ hj
      have hb := hE _ _ _ _ hj'
      rw [length_flatMap_pair] at hb
      simp only [List.length_append, List.length_cons, List.length_nil] at hb
      simp only [List.length_nil]
      omega
  · simp [WallMesh.generate_side]

theorem locked_generate_front (m : WallMesh) (sl sr disp : Vec2) (h : Locked m) :
    Locked (WallMesh.generate_front m sl sr disp) ∧
    (WallMesh.generate_front m sl sr disp).positions.length = m.positions.length + 4 := by
  obtain ⟨h1, h2, h3⟩ := h
  refine ⟨⟨?_, ?_, ?_⟩, ?_⟩
  · simp [WallMesh.generate_front, h1]
  · simp [WallMesh.generate_front, h2]
  · intro i hi
    simp only [WallMesh.generate_front, List.mem_append] at hi
    simp only [WallMesh.generate_front, List.length_append, List.length_cons, List.length_nil]
    rcases hi with hi | hi
    · have := h3 i hi
      omega
    · simp at hi
      omega
  · simp [WallMesh.generate_front]

theorem locked_generate_back (m : WallMesh) (el er disp : Vec2) (h : Locked m) :
    Locked (WallMesh.generate_back m el er disp) ∧
    (WallMesh.generate_back m el er disp).positions.length = m.positions.length + 4 := by
  obtain ⟨h1, h2, h3⟩ := h
  refine ⟨⟨?_, ?_, ?_⟩, ?_⟩
  · simp [WallMesh.generate_back, h1]
  · simp [WallMesh.generate_back, h2]
  · intro i hi
    simp only [WallMesh.generate_back, List.mem_append] at hi
    simp only [WallMesh.generate_back, List.length_append, List.length_cons, List.length_nil]
    rcases hi with hi | hi
    · have := h3 i hi
      omega
    · simp at hi
      omega
  · simp [WallMesh.generate_back]

theorem locked_generate_start_connection (m : WallMesh) (wall : Wall)
    (h : Locked m) (hlen : 4 ≤ m.positions.length) :
    Locked (WallMesh.generate_start_connection m wall) ∧
    (WallMesh.generate_start_connection m wall).positions.length = m.positions.length + 1 := by
  obtain ⟨h1, h2, h3⟩ := h
  refine ⟨⟨?_, ?_, ?_⟩, ?_⟩
  · simp [WallMesh.generate_start_connection, h1]
  · simp [WallMesh.generate_start_connection, h2]
  · intro i hi
    simp only [WallMesh.generate_start_connection, List.mem_append] at hi
    simp only [WallMesh.generate_start_connection, List.length_append, List.length_cons,
      List.length_nil]
    rcases hi with hi | hi
    · have := h3 i hi
      omega
    · simp at hi
      omega
  · simp [WallMesh.generate_start_connection]

theorem locked_generate_end_connection (m : WallMesh) (wall : Wall) (θ : ℝ)
    (h : Locked m) (hlen : 4 ≤ m.positions.length) :
    Locked (WallMesh.generate_end_connection m wall θ) ∧
    (WallMesh.generate_end_connection m wall θ).positions.length = m.positions.length + 1 := by
  obtain ⟨h1, h2, h3⟩ := h
  refine ⟨⟨?_, ?_, ?_⟩, ?_⟩
  · simp [WallMesh.generate_end_connection, h1]
  · simp [WallMesh.generate_end_connection, h2]
  · intro i hi
    simp only [WallMesh.generate_end_connection, List.mem_append] at hi
    simp only [WallMesh.generate_end_connection, List.length_append, List.length_cons,
      List.length_nil]
    rcases hi with hi | hi
    · have := h3 i hi
      omega
    · simp at hi
      omega
  · simp [WallMesh.generate_end_connection]

theorem locked_applyStartMatch (m : WallMesh) (wall : Wall) (sw : MinMaxResult Wall)
    (sl sr disp : Vec2) (h : Locked m) (hlen : 4 ≤ m.positions.length) :
    Locked (applyStartMatch m wall sw sl sr disp) ∧
    4 ≤ (applyStartMatch m wall sw sl sr disp).positions.length := by
  cases sw with
  | noElements =>
    obtain ⟨hl, he⟩ := locked_generate_front m sl sr disp h
    refine ⟨hl, ?_⟩
    show 4 ≤ (WallMesh.generate_front m sl sr disp).positions.length
    omega
  | oneElement w => exact ⟨h, hlen⟩
  | minMax a b =>
    obtain ⟨hl, he⟩ := locked_generate_start_connection m wall h hlen
    refine ⟨hl, ?_⟩
    show 4 ≤ (WallMesh.generate_start_connection m wall).positions.length
    omega

theorem locked_applyEndMatch (m : WallMesh) (wall : Wall) (ew : MinMaxResult Wall)
    (el er disp : Vec2) (θ : ℝ) (h : Locked m) (hlen : 4 ≤ m.positions.length) :
    Locked (applyEndMatch m wall ew el er disp θ) := by
  cases ew with
  | noElements => exact (locked_generate_back m el er disp h).1
  | oneElement w => exact h
  | minMax a b => exact (locked_generate_end_connection m wall θ h hlen).1

theorem locked_road_surface (m : DynamicMesh) (s : Segment) (sl sr el er : Vec2) (θ w : ℝ)
    (h : Locked m) :
    Locked (RoadMesh.generate_surface m s sl sr el er θ w) ∧
    (RoadMesh.generate_surface m s sl sr el er θ w).positions.length
      = m.positions.length + 4 := by
  obtain ⟨h1, h2, h3⟩ := h
  refine ⟨⟨?_, ?_, ?_⟩, ?_⟩
  · simp [RoadMesh.generate_surface, h1]
  · simp [RoadMesh.generate_surface, h2]
  · intro i hi
    simp only [RoadMesh.generate_surface, List.mem_append] at hi
    simp only [RoadMesh.generate_surface, List.length_append, List.length_cons, List.length_nil]
    rcases hi with hi | hi
    · have := h3 i hi
      omega
    · simp at hi
      omega
  · simp [RoadMesh.generate_surface]

theorem locked_road_start_connection (m : DynamicMesh) (s : Segment)
    (h : Locked m) (hlen : 4 ≤ m.positions.length) :
    Locked (RoadMesh.generate_start_connection m s) ∧
    (RoadMesh.generate_start_connection m s).positions.length = m.positions.length + 1 := by
  obtain ⟨h1, h2, h3⟩ := h
  refine ⟨⟨?_, ?_, ?_⟩, ?_⟩
  · simp [RoadMesh.generate_start_connection, h1]
  · simp [RoadMesh.generate_start_connection, h2]
  · intro i hi
    simp only [RoadMesh.generate_start_connection, List.mem_append] at hi
    simp only [RoadMesh.generate_start_connection, List.length_append, List.length_cons,
      List.length_nil]
    rcases hi with hi | hi
    · have := h3 i hi
      omega
    · simp at hi
      omega
  · simp [RoadMesh.generate_start_connection]

theorem locked_road_end_connection (m : DynamicMesh) (s : Segment) (θ w : ℝ)
    (h : Locked m) (hlen : 4 ≤ m.positions.length) :
    Locked (RoadMesh.generate_end_connection m s θ w) := by
  obtain ⟨h1, h2, h3⟩ := h
  refine ⟨?_, ?_, ?_⟩
  · simp [RoadMesh.generate_end_connection, h1]
  · simp [RoadMesh.generate_end_connection, h2]
  · intro i hi
    simp only [RoadMesh.generate_end_connection, List.mem_append] at hi
    simp only [RoadMesh.generate_end_connection, List.length_append, List.length_cons,
      List.length_nil]
    rcases hi with hi | hi
    · have := h3 i hi
      omega
    · simp at hi
      omega

theorem locked_wall_chain (earcut : List ℝ → List ℕ → ℕ → List ℕ)
    (hE : ∀ vs hs d, ∀ i ∈ earcut vs hs d, i < vs.length / 2)
    (wall : Wall) (aps : Apertures) (a b c d : Vec2) (θ : ℝ)
    (e1 e2 w1 : Vec2) (p : Prop) (f1 f2 w2 : Vec2) (q : Prop) :
    Locked (WallMesh.generate_side earcut
        (WallMesh.generate_side earcut (WallMesh.generate_top emptyMesh wall a b c d θ)
          wall aps e1 e2 w1 θ p)
        wall aps f1 f2 w2 θ q) ∧
    4 ≤ (WallMesh.generate_side earcut
        (WallMesh.generate_side earcut (WallMesh.generate_top emptyMesh wall a b c d θ)
          wall aps e1 e2 w1 θ p)
        wall aps f1 f2 w2 θ q).positions.length := by
  obtain ⟨ht, htl⟩ := locked_generate_top emptyMesh wall a b c d θ locked_empty
  obtain ⟨h1, h1l⟩ := locked_generate_side earcut hE
    (WallMesh.generate_top emptyMesh wall a b c d θ) wall aps e1 e2 w1 θ p ht
  obtain ⟨h2, h2l⟩ := locked_generate_side earcut hE
    (WallMesh.generate_side earcut (WallMesh.generate_top emptyMesh wall a b c d θ)
      wall aps e1 e2 w1 θ p) wall aps f1 f2 w2 θ q h1
  have h0 : (emptyMesh : DynamicMesh).positions.length = 0 := rfl
  exact ⟨h2, by omega⟩

/-- The two junction-fill dispatches at the end of the road `generate`. -/
def applyRoadMatches (m1 : DynamicMesh) (segment : Segment) (θ w : ℝ)
    (sc ec : MinMaxResult Segment) : DynamicMesh :=
  let m2 := match sc with
    | .minMax _ _ => RoadMesh.generate_start_connection m1 segment
    | _ => m1
  match ec with
  | .minMax _ _ => RoadMesh.generate_end_connection m2 segment θ w
  | _ => m2

theorem locked_applyRoadMatches (m1 : DynamicMesh) (segment : Segment) (θ w : ℝ)
    (sc ec : MinMaxResult Segment) (h : Locked m1) (hlen : 4 ≤ m1.positions.length) :
    Locked (applyRoadMatches m1 segment θ w sc ec) := by
  have hm2 : Locked (match sc with
        | .minMax _ _ => RoadMesh.generate_start_connection m1 segment
        | _ => m1) ∧
      4 ≤ (match sc with
        | .minMax _ _ => RoadMesh.generate_start_connection m1 segment
        | _ => m1).positions.length := by
    cases sc with
    | noElements => exact ⟨h, hlen⟩
    | oneElement s => exact ⟨h, hlen⟩
    | minMax a b =>
      obtain ⟨hl, he⟩ := locked_road_start_connection m1 segment h hlen
      refine ⟨hl, ?_⟩
      show 4 ≤ (RoadMesh.generate_start_connection m1 segment).positions.length
      omega
  cases ec with
  | noElements => exact hm2.1
  | oneElement s => exact hm2.1
  | minMax a b => exact locked_road_end_connection _ segment θ w hm2.1 hm2.2

/-- C4: after every completed wall or road generation call the positions, uvs
and normals sequences have equal lengths, and every triangle index is strictly
below the positions length.  The external triangulator is assumed to return
indices within the supplied vertex list, which is `earcutr`'s contract. -/
theorem mesh_buffer_invariants (earcut : List ℝ → List ℕ → ℕ → List ℕ)
    (hE : ∀ vs hs d, ∀ i ∈ earcut vs hs d, i < vs.length / 2) :
    (∀ m wall conns aps,
      (WallMesh.generate earcut m wall conns aps).uvs.length
          = (WallMesh.generate earcut m wall conns aps).positions.length ∧
      (WallMesh.generate earcut m wall conns aps).normals.length
          = (WallMesh.generate earcut m wall conns aps).positions.length ∧
      ∀ i ∈ (WallMesh.generate earcut m wall conns aps).indices,
        i < (WallMesh.generate earcut m wall conns aps).positions.length) ∧
    (∀ m segment conns half_width,
      (RoadMesh.generate m segment conns half_width).uvs.length
          = (RoadMesh.generate m segment conns half_width).positions.length ∧
      (RoadMesh.generate m segment conns half_width).normals.length
          = (RoadMesh.generate m segment conns half_width).positions.length ∧
      ∀ i ∈ (RoadMesh.generate m segment conns half_width).indices,
        i < (RoadMesh.generate m segment conns half_width).positions.length) := by
  constructor
  · intro m wall conns aps
    by_cases hd : wall.start = wall.«end»
    · have hout : WallMesh.generate earcut m wall conns aps = emptyMesh := by
        simp [WallMesh.generate, if_pos hd, DynamicMesh.clear]
      rw [hout]
      exact locked_empty
    · have hout : WallMesh.generate earcut m wall conns aps =
          applyEndMatch
            (applyStartMatch (wallSides earcut wall conns aps) wall
              (minmax_angles wall.displacement .Start conns.start)
              (offset_points wall (minmax_angles wall.displacement .Start conns.start)
                (wall_width wall.displacement)).1
              (offset_points wall (minmax_angles wall.displacement .Start conns.start)
                (wall_width wall.displacement)).2
              wall.displacement)
            wall (minmax_angles (-wall.displacement) .End conns.«end»)
            (offset_points wall.inverse (minmax_angles (-wall.displacement) .End conns.«end»)
              (-(wall_width wall.displacement))).2
            (offset_points wall.inverse (minmax_angles (-wall.displacement) .End conns.«end»)
              (-(wall_width wall.displacement))).1
            wall.displacement (-(Segment.displacement wall).to_angle) := by
        simp only [WallMesh.generate, wallSides, DynamicMesh.clear]
        rw [if_neg hd]
      rw [hout]
      obtain ⟨hbL, hbLen⟩ : Locked (wallSides earcut wall conns aps) ∧
          4 ≤ (wallSides earcut wall conns aps).positions.length :=
        locked_wall_chain earcut hE wall aps _ _ _ _ _ _ _ _ _ _ _ _ _
      obtain ⟨hsm, hsml⟩ := locked_applyStartMatch (wallSides earcut wall conns aps) wall
        (minmax_angles wall.displacement .Start conns.start)
        (offset_points wall (minmax_angles wall.displacement .Start conns.start)
          (wall_width wall.displacement)).1
        (offset_points wall (minmax_angles wall.displacement .Start conns.start)
          (wall_width wall.displacement)).2
        wall.displacement hbL hbLen
      exact locked_applyEndMatch _ wall _ _ _ _ _ hsm hsml
  · intro m segment conns half_width
    by_cases hd : segment.start = segment.«end»
    · have hout : RoadMesh.generate m segment conns half_width = emptyMesh := by
        simp [RoadMesh.generate, if_pos hd, DynamicMesh.clear]
      rw [hout]
      exact locked_empty
    · have hout : RoadMesh.generate m segment conns half_width =
          applyRoadMatches
            (RoadMesh.generate_surface emptyMesh segment
              (Segment.offset_points segment
                (Vec2.scale half_width segment.displacement.perp.normalize) half_width
                (SplineConnections.minmax_angles conns segment.displacement .Start)).1
              (Segment.offset_points segment
                (Vec2.scale half_width segment.displacement.perp.normalize) half_width
                (SplineConnections.minmax_angles conns segment.displacement .Start)).2
              (Segment.offset_points segment.inverse
                (-(Vec2.scale half_width segment.displacement.perp.normalize)) half_width
                (SplineConnections.minmax_angles conns (-segment.displacement) .End)).2
              (Segment.offset_points segment.inverse
                (-(Vec2.scale half_width segment.displacement.perp.normalize)) half_width
                (SplineConnections.minmax_angles conns (-segment.displacement) .End)).1
              (-(Segment.displacement segment).to_angle + Real.pi / 2) (half_width * 2))
            segment (-(Segment.displacement segment).to_angle + Real.pi / 2) (half_width * 2)
            (SplineConnections.minmax_angles conns segment.displacement .Start)
            (SplineConnections.minmax_angles conns (-segment.displacement) .End) := by
        simp only [RoadMesh.generate, applyRoadMatches, DynamicMesh.clear]
        rw [if_neg hd]
      rw [hout]
      obtain ⟨hs, hsl⟩ := locked_road_surface emptyMesh segment
        (Segment.offset_points segment
          (Vec2.scale half_width segment.displacement.perp.normalize) half_width
          (SplineConnections.minmax_angles conns segment.displacement .Start)).1
        (Segment.offset_points segment
          (Vec2.scale half_width segment.displacement.perp.normalize) half_width
          (SplineConnections.minmax_angles conns segment.displacement .Start)).2
        (Segment.offset_points segment.inverse
          (-(Vec2.scale half_width segment.displacement.perp.normalize)) half_width
          (SplineConnections.minmax_angles conns (-segment.displacement) .End)).2
        (Segment.offset_points segment.inverse
          (-(Vec2.scale half_width segment.displacement.perp.normalize)) half_width
          (SplineConnections.minmax_angles conns (-segment.displacement) .End)).1
        (-(Segment.displacement segment).to_angle + Real.pi / 2) (half_width * 2)
        locked_empty
      exact locked_applyRoadMatches _ segment _ _ _ _ hs (by omega)

/-- Witness for C4: the buffer invariant at the concrete wall `W0` with the
trivial triangulator (which vacuously satisfies the index bound). -/
theorem mesh_buffer_invariants_witness :
    (∀ vs hs d, ∀ i ∈ E0 vs hs d, i < vs.length / 2) ∧
    ((WallMesh.generate E0 emptyMesh W0 C0 []).uvs.length
        = (WallMesh.generate E0 emptyMesh W0 C0 []).positions.length ∧
      (WallMesh.generate E0 emptyMesh W0 C0 []).normals.length
        = (WallMesh.generate E0 emptyMesh W0 C0 []).positions.length ∧
      ∀ i ∈ (WallMesh.generate E0 emptyMesh W0 C0 []).indices,
        i < (WallMesh.generate E0 emptyMesh W0 C0 []).positions.length) := by
  have hE : ∀ vs hs d, ∀ i ∈ E0 vs hs d, i < vs.length / 2 := by simp [E0]
  exact ⟨hE, (mesh_buffer_invariants E0 hE).1 emptyMesh W0 C0 []⟩

/-- All positions of a road buffer sit at the road height. -/
def AllHeights (m : DynamicMesh) : Prop := ∀ p ∈ m.positions, p.y = ROAD_HEIGHT

theorem allHeights_surface (m : DynamicMesh) (s : Segment) (sl sr el er : Vec2) (θ w : ℝ)
    (h : AllHeights m) : AllHeights (RoadMesh.generate_surface m s sl sr el er θ w) := by
  intro p hp
  simp only [RoadMesh.generate_surface, List.mem_append, List.mem_cons, List.not_mem_nil,
    or_false] at hp
  rcases hp with hp | hp | hp | hp | hp
  · exact h p hp
  all_goals subst hp; rfl

theorem allHeights_start_connection (m : DynamicMesh) (s : Segment)
    (h : AllHeights m) : AllHeights (RoadMesh.generate_start_connection m s) := by
  intro p hp
  simp only [RoadMesh.generate_start_connection, List.mem_append, List.mem_cons,
    List.not_mem_nil, or_false] at hp
  rcases hp with hp | hp
  · exact h p hp
  · subst hp; rfl

theorem allHeights_end_connection (m : DynamicMesh) (s : Segment) (θ w : ℝ)
    (h : AllHeights m) : AllHeights (RoadMesh.generate_end_connection m s θ w) := by
  intro p hp
  simp only [RoadMesh.generate_end_connection, List.mem_append, List.mem_cons,
    List.not_mem_nil, or_false] at hp
  rcases hp with hp | hp
  · exact h p hp
  · subst hp; rfl

theorem allHeights_applyRoadMatches (m1 : DynamicMesh) (segment : Segment) (θ w : ℝ)
    (sc ec : MinMaxResult Segment) (h : AllHeights m1) :
    AllHeights (applyRoadMatches m1 segment θ w sc ec) := by
  have hm2 : AllHeights (match sc with
      | .minMax _ _ => RoadMesh.generate_start_connection m1 segment
      | _ => m1) := by
    cases sc with
    | noElements => exact h
    | oneElement s => exact h
    | minMax a b => exact allHeights_start_connection m1 segment h
  cases ec with
  | noElements => exact hm2
  | oneElement s => exact hm2
  | minMax a b => exact allHeights_end_connection _ segment θ w hm2

/-- C10: every position emitted by the road generator for a non-degenerate
segment sits at the constant height 0.001, never at 0. -/
theorem road_positions_height (m : DynamicMesh) (segment : Segment)
    (conns : SplineConnections) (half_width : ℝ)
    (h : segment.start ≠ segment.«end») :
    ∀ p ∈ (RoadMesh.generate m segment conns half_width).positions,
      p.y = 0.001 ∧ p.y ≠ 0 := by
  have hout : RoadMesh.generate m segment conns half_width =
      applyRoadMatches
        (RoadMesh.generate_surface emptyMesh segment
          (Segment.offset_points segment
            (Vec2.scale half_width segment.displacement.perp.normalize) half_width
            (SplineConnections.minmax_angles conns segment.displacement .Start)).1
          (Segment.offset_points segment
            (Vec2.scale half_width segment.displacement.perp.normalize) half_width
            (SplineConnections.minmax_angles conns segment.displacement .Start)).2
          (Segment.offset_points segment.inverse
            (-(Vec2.scale half_width segment.displacement.perp.normalize)) half_width
            (SplineConnections.minmax_angles conns (-segment.displacement) .End)).2
          (Segment.offset_points segment.inverse
            (-(Vec2.scale half_width segment.displacement.perp.normalize)) half_width
            (SplineConnections.minmax_angles conns (-segment.displacement) .End)).1
          (-(Segment.displacement segment).to_angle + Real.pi / 2) (half_width * 2))
        segment (-(Segment.displacement segment).to_angle + Real.pi / 2) (half_width * 2)
        (SplineConnections.minmax_angles conns segment.displacement .Start)
        (SplineConnections.minmax_angles conns (-segment.displacement) .End) := by
    simp only [RoadMesh.generate, applyRoadMatches, DynamicMesh.clear]
    rw [if_neg h]
  rw [hout]
  have hr : ROAD_HEIGHT = 0.001 := rfl
  have hne : (0.001 : ℝ) ≠ 0 := by norm_num
  intro p hp
  have hh := allHeights_applyRoadMatches _ segment _ _ _ _
    (allHeights_surface emptyMesh segment _ _ _ _ _ _ (by simp [AllHeights, emptyMesh])) p hp
  rw [hr] at hh
  exact ⟨hh, hh ▸ hne⟩

/-- Concrete road segment used by witnesses. -/
def S1 : Segment := ⟨⟨0, 0⟩, ⟨1, 0⟩⟩

/-- Empty spline connection lists used by witnesses. -/
def SC0 : SplineConnections := ⟨[], []⟩

theorem S1_nondegenerate : S1.start ≠ S1.«end» := by
  intro hh
  have hx : (0 : ℝ) = 1 := congrArg Vec2.x hh
  norm_num at hx

/-- Witness for C10 at a concrete road segment. -/
theorem road_positions_height_witness :
    (S1.start ≠ S1.«end») ∧
    ∀ p ∈ (RoadMesh.generate emptyMesh S1 SC0 1).positions, p.y = 0.001 ∧ p.y ≠ 0 :=
  ⟨S1_nondegenerate, road_positions_height emptyMesh S1 SC0 1 S1_nondegenerate⟩

theorem W0_disp : Segment.displacement W0 = ⟨4, 0⟩ := by
  simp [W0, Segment.displacement]

theorem W0_wall_width : wall_width (⟨4, 0⟩ : Vec2) = ⟨0, 3 / 40⟩ := by
  have hperp : Vec2.perp ⟨4, 0⟩ = ⟨0, 4⟩ := by
    simp [Vec2.perp]
  have hlen : Vec2.length ⟨0, 4⟩ = 4 := by
    rw [Vec2.length]
    norm_num
    rw [show (16 : ℝ) = 4 ^ 2 by norm_num]
    exact Real.sqrt_sq (by norm_num)
  rw [wall_width, hperp, Vec2.normalize, hlen]
  simp [Vec2.scale, HALF_WIDTH, WIDTH]
  norm_num

theorem W0_to_angle : Vec2.to_angle (⟨4, 0⟩ : Vec2) = 0 := by
  rw [Vec2.to_angle, atan2]
  rw [show (⟨4, 0⟩ : ℂ) = ((4 : ℝ) : ℂ) from Complex.ext rfl rfl]
  exact Complex.arg_ofReal_of_nonneg (by norm_num)

theorem W0_winding : |(-Vec2.to_angle (⟨4, 0⟩ : Vec2))| < Real.pi / 2 := by
  rw [W0_to_angle, neg_zero, abs_zero]
  have := Real.pi_pos
  linarith

/-- Full evaluation of the wall generator on the spec's concrete scenario: the
wall `W0` from (0,0) to (4,0), no connections, no apertures. -/
theorem wallW0_buffer (earcut : List ℝ → List ℕ → ℕ → List ℕ) (m : WallMesh) :
    (WallMesh.generate earcut m W0 C0 []).positions =
      [⟨0, HEIGHT, 3 / 40⟩, ⟨0, HEIGHT, -(3 / 40)⟩, ⟨4, HEIGHT, -(3 / 40)⟩, ⟨4, HEIGHT, 3 / 40⟩,
       ⟨0, 0, -(3 / 40)⟩, ⟨4, 0, -(3 / 40)⟩, ⟨4, HEIGHT, -(3 / 40)⟩, ⟨0, HEIGHT, -(3 / 40)⟩,
       ⟨0, 0, 3 / 40⟩, ⟨4, 0, 3 / 40⟩, ⟨4, HEIGHT, 3 / 40⟩, ⟨0, HEIGHT, 3 / 40⟩,
       ⟨0, 0, 3 / 40⟩, ⟨0, HEIGHT, 3 / 40⟩, ⟨0, HEIGHT, -(3 / 40)⟩, ⟨0, 0, -(3 / 40)⟩,
       ⟨4, 0, 3 / 40⟩, ⟨4, HEIGHT, 3 / 40⟩, ⟨4, HEIGHT, -(3 / 40)⟩, ⟨4, 0, -(3 / 40)⟩] ∧
    (WallMesh.generate earcut m W0 C0 []).normals =
      [⟨0, 1, 0⟩, ⟨0, 1, 0⟩, ⟨0, 1, 0⟩, ⟨0, 1, 0⟩,
       ⟨0, 0, -(3 / 40)⟩, ⟨0, 0, -(3 / 40)⟩, ⟨0, 0, -(3 / 40)⟩, ⟨0, 0, -(3 / 40)⟩,
       ⟨0, 0, 3 / 40⟩, ⟨0, 0, 3 / 40⟩, ⟨0, 0, 3 / 40⟩, ⟨0, 0, 3 / 40⟩,
       ⟨-4, 0, 0⟩, ⟨-4, 0, 0⟩, ⟨-4, 0, 0⟩, ⟨-4, 0, 0⟩,
       ⟨4, 0, 0⟩, ⟨4, 0, 0⟩, ⟨4, 0, 0⟩, ⟨4, 0, 0⟩] ∧
    (WallMesh.generate earcut m W0 C0 []).uvs.length = 20 ∧
    ∃ v1 v2 : List ℝ, v1.length = 8 ∧ v2.length = 8 ∧
      (WallMesh.generate earcut m W0 C0 []).indices.length
        = 18 + (earcut v1 [] 2).length + (earcut v2 [] 2).length := by
  simp only [WallMesh.generate]
  rw [if_neg W0_nondegenerate]
  rw [W0_disp, W0_wall_width]
  simp only [C0, minmax_angles, List.map_nil, minmaxByKey, offset_points]
  simp only [applyStartMatch, applyEndMatch]
  simp only [WallMesh.generate_top, WallMesh.generate_side, WallMesh.generate_front,
    WallMesh.generate_back, DynamicMesh.clear, emptyMesh]
  simp only [W0, Segment.inverse, Vec2.add_def, Vec2.sub_def, Vec2.neg_def]
  rw [if_pos W0_winding, if_neg (not_not_intro W0_winding)]
  simp only [List.nil_append, List.cons_append, List.append_nil, List.flatMap_nil,
    List.flatMap_cons, List.replicate, holeIndicesFrom]
  refine ⟨by norm_num, by norm_num, by norm_num, ?_⟩
  refine ⟨[0 - 0, 0, 4 + -0, 0, 4 + -0, HEIGHT, 0 - 0, HEIGHT],
    [0 + 0, 0, 4 - -0, 0, 4 - -0, HEIGHT, 0 + 0, HEIGHT], by norm_num, by norm_num, ?_⟩
  simp only [List.length_append, List.length_cons, List.length_nil, List.length_map,
    length_reverseTriples]
  omega

/-- Counterexample to C9 as stated: on the concrete scenario the index count
is 30 (6 for the top plus 6 for each of the two sides plus 6 for each of the
two caps), not 24, for a triangulator emitting `3*(n-2)` indices per
hole-free `n`-gon. -/
theorem wall_index_count_counterexample :
    (∀ vs : List ℝ,
      ((fun (vs : List ℝ) (_ : List ℕ) (_ : ℕ) => List.replicate (3 * (vs.length / 2 - 2)) 0)
          vs [] 2).length = 3 * (vs.length / 2 - 2)) ∧
    (WallMesh.generate
        (fun (vs : List ℝ) (_ : List ℕ) (_ : ℕ) => List.replicate (3 * (vs.length / 2 - 2)) 0)
        emptyMesh W0 C0 []).indices.length ≠ 24 := by
  refine ⟨fun vs => by simp, ?_⟩
  obtain ⟨-, -, -, v1, v2, h1, h2, hi⟩ := wallW0_buffer
    (fun (vs : List ℝ) (_ : List ℕ) (_ : ℕ) => List.replicate (3 * (vs.length / 2 - 2)) 0)
    emptyMesh
  rw [hi]
  simp only [List.length_replicate, h1, h2]
  omega

/-- C9 (amended): on the spec's concrete scenario (wall from (0,0) to (4,0),
half-width 0.075, no connections, no apertures) the generator emits 4 top-face
positions forming a 4 by 0.15 rectangle, two side faces of 4 vertices each,
two end caps of 4 vertices each (20 positions in total, with UVs and normals
in lockstep), and exactly 30 indices (6 for the top, 6 per side face, 6 per
end cap), given that the triangulator emits `3*(n-2)` indices for an `n`-gon
without holes (`earcutr`'s behavior). -/
theorem wall_concrete_scenario (earcut : List ℝ → List ℕ → ℕ → List ℕ) (m : WallMesh)
    (He : ∀ vs : List ℝ, (earcut vs [] 2).length = 3 * (vs.length / 2 - 2)) :
    HALF_WIDTH = 0.075 ∧ (0.075 : ℝ) = 3 / 40 ∧
    (WallMesh.generate earcut m W0 C0 []).positions.take 4 =
      [⟨0, HEIGHT, 3 / 40⟩, ⟨0, HEIGHT, -(3 / 40)⟩,
       ⟨4, HEIGHT, -(3 / 40)⟩, ⟨4, HEIGHT, 3 / 40⟩] ∧
    (WallMesh.generate earcut m W0 C0 []).positions =
      [⟨0, HEIGHT, 3 / 40⟩, ⟨0, HEIGHT, -(3 / 40)⟩, ⟨4, HEIGHT, -(3 / 40)⟩, ⟨4, HEIGHT, 3 / 40⟩,
       ⟨0, 0, -(3 / 40)⟩, ⟨4, 0, -(3 / 40)⟩, ⟨4, HEIGHT, -(3 / 40)⟩, ⟨0, HEIGHT, -(3 / 40)⟩,
       ⟨0, 0, 3 / 40⟩, ⟨4, 0, 3 / 40⟩, ⟨4, HEIGHT, 3 / 40⟩, ⟨0, HEIGHT, 3 / 40⟩,
       ⟨0, 0, 3 / 40⟩, ⟨0, HEIGHT, 3 / 40⟩, ⟨0, HEIGHT, -(3 / 40)⟩, ⟨0, 0, -(3 / 40)⟩,
       ⟨4, 0, 3 / 40⟩, ⟨4, HEIGHT, 3 / 40⟩, ⟨4, HEIGHT, -(3 / 40)⟩, ⟨4, 0, -(3 / 40)⟩] ∧
    (WallMesh.generate earcut m W0 C0 []).positions.length = 20 ∧
    (WallMesh.generate earcut m W0 C0 []).uvs.length = 20 ∧
    (WallMesh.generate earcut m W0 C0 []).normals.length = 20 ∧
    (WallMesh.generate earcut m W0 C0 []).indices.length = 30 := by
  obtain ⟨hp, hn, hu, v1, v2, h1, h2, hi⟩ := wallW0_buffer earcut m
  refine ⟨by norm_num [HALF_WIDTH, WIDTH], by norm_num, ?_, hp, ?_, hu, ?_, ?_⟩
  · rw [hp]
    rfl
  · rw [hp]
    rfl
  · rw [hn]
    rfl
  · rw [hi, He v1, He v2, h1, h2]

/-- Witness for C9: the counting hypothesis and the index count at a concrete
triangulator returning `3*(n-2)` indices. -/
theorem wall_concrete_scenario_witness :
    (∀ vs : List ℝ,
      ((fun (vs : List ℝ) (_ : List ℕ) (_ : ℕ) => List.replicate (3 * (vs.length / 2 - 2)) 0)
          vs [] 2).length = 3 * (vs.length / 2 - 2)) ∧
    (WallMesh.generate
        (fun (vs : List ℝ) (_ : List ℕ) (_ : ℕ) => List.replicate (3 * (vs.length / 2 - 2)) 0)
        emptyMesh W0 C0 []).positions.length = 20 ∧
    (WallMesh.generate
        (fun (vs : List ℝ) (_ : List ℕ) (_ : ℕ) => List.replicate (3 * (vs.length / 2 - 2)) 0)
        emptyMesh W0 C0 []).indices.length = 30 := by
  have He : ∀ vs : List ℝ,
      ((fun (vs : List ℝ) (_ : List ℕ) (_ : ℕ) => List.replicate (3 * (vs.length / 2 - 2)) 0)
          vs [] 2).length = 3 * (vs.length / 2 - 2) := by
    intro vs
    simp
  have h := wall_concrete_scenario
    (fun (vs : List ℝ) (_ : List ℕ) (_ : ℕ) => List.replicate (3 * (vs.length / 2 - 2)) 0)
    emptyMesh He
  exact ⟨He, h.2.2.2.2.1, h.2.2.2.2.2.2.2⟩

/-- Counterexample to C7: on the wall from (0,0) to (4,0) the generator pushes
the side-face normal (0, 0, -3/40), whose length is 3/40, not 1. -/
theorem normals_unit_counterexample :
    ¬ ∀ v ∈ (WallMesh.generate E0 emptyMesh W0 C0 []).normals,
        Real.sqrt (v.x ^ 2 + v.y ^ 2 + v.z ^ 2) = 1 := by
  intro h
  have hmem : (⟨0, 0, -(3 / 40)⟩ : Vec3) ∈ (WallMesh.generate E0 emptyMesh W0 C0 []).normals := by
    rw [(wallW0_buffer E0 emptyMesh).2.1]
    simp
  have hv := h _ hmem
  have hs : ((⟨0, 0, -(3 / 40)⟩ : Vec3).x ^ 2 + (⟨0, 0, -(3 / 40)⟩ : Vec3).y ^ 2 +
      (⟨0, 0, -(3 / 40)⟩ : Vec3).z ^ 2 : ℝ) = (3 / 40) ^ 2 := by norm_num
  rw [hs, Real.sqrt_sq (by norm_num : (0 : ℝ) ≤ 3 / 40)] at hv
  norm_num at hv

theorem normalsOk_generate_top (P : Vec3 → Prop) (m : WallMesh) (wall : Wall)
    (sl sr el er : Vec2) (θ : ℝ) (hm : ∀ v ∈ m.normals, P v) (hP : P ⟨0, 1, 0⟩) :
    ∀ v ∈ (WallMesh.generate_top m wall sl sr el er θ).normals, P v := by
  intro v hv
  simp only [WallMesh.generate_top, List.mem_append, List.mem_replicate] at hv
  rcases hv with hv | ⟨-, hv⟩
  · exact hm v hv
  · subst hv; exact hP

theorem normalsOk_generate_side (P : Vec3 → Prop) (earcut : List ℝ → List ℕ → ℕ → List ℕ)
    (m : WallMesh) (wall : Wall) (aps : Apertures) (ss es width : Vec2) (θ : ℝ) (iw : Prop)
    (hm : ∀ v ∈ m.normals, P v) (hP : P ⟨width.x, 0, width.y⟩) :
    ∀ v ∈ (WallMesh.generate_side earcut m wall aps ss es width θ iw).normals, P v := by
  intro v hv
  simp only [WallMesh.generate_side, List.mem_append, List.mem_replicate] at hv
  rcases hv with (hv | ⟨-, hv⟩) | ⟨-, hv⟩
  · exact hm v hv
  · subst hv; exact hP
  · subst hv; exact hP

theorem normalsOk_generate_front (P : Vec3 → Prop) (m : WallMesh) (sl sr disp : Vec2)
    (hm : ∀ v ∈ m.normals, P v) (hP : P ⟨-disp.x, 0, -disp.y⟩) :
    ∀ v ∈ (WallMesh.generate_front m sl sr disp).normals, P v := by
  intro v hv
  simp only [WallMesh.generate_front, List.mem_append, List.mem_replicate] at hv
  rcases hv with hv | ⟨-, hv⟩
  · exact hm v hv
  · subst hv; exact hP

theorem normalsOk_generate_back (P : Vec3 → Prop) (m : WallMesh) (el er disp : Vec2)
    (hm : ∀ v ∈ m.normals, P v) (hP : P ⟨disp.x, 0, disp.y⟩) :
    ∀ v ∈ (WallMesh.generate_back m el er disp).normals, P v := by
  intro v hv
  simp only [WallMesh.generate_back, List.mem_append, List.mem_replicate] at hv
  rcases hv with hv | ⟨-, hv⟩
  · exact hm v hv
  · subst hv; exact hP

theorem normalsOk_applyStartMatch (P : Vec3 → Prop) (m : WallMesh) (wall : Wall)
    (sw : MinMaxResult Wall) (sl sr disp : Vec2)
    (hm : ∀ v ∈ m.normals, P v) (hup : P ⟨0, 1, 0⟩) (hcap : P ⟨-disp.x, 0, -disp.y⟩) :
    ∀ v ∈ (applyStartMatch m wall sw sl sr disp).normals, P v := by
  cases sw with
  | noElements => exact normalsOk_generate_front P m sl sr disp hm hcap
  | oneElement w => exact hm
  | minMax a b =>
    intro v hv
    simp only [applyStartMatch, WallMesh.generate_start_connection, List.mem_append,
      List.mem_cons, List.not_mem_nil, or_false] at hv
    rcases hv with hv | hv
    · exact hm v hv
    · subst hv; exact hup

theorem normalsOk_applyEndMatch (P : Vec3 → Prop) (m : WallMesh) (wall : Wall)
    (ew : MinMaxResult Wall) (el er disp : Vec2) (θ : ℝ)
    (hm : ∀ v ∈ m.normals, P v) (hup : P ⟨0, 1, 0⟩) (hcap : P ⟨disp.x, 0, disp.y⟩) :
    ∀ v ∈ (applyEndMatch m wall ew el er disp θ).normals, P v := by
  cases ew with
  | noElements => exact normalsOk_generate_back P m el er disp hm hcap
  | oneElement w => exact hm
  | minMax a b =>
    intro v hv
    simp only [applyEndMatch, WallMesh.generate_end_connection, List.mem_append,
      List.mem_cons, List.not_mem_nil, or_false] at hv
    rcases hv with hv | hv
    · exact hm v hv
    · subst hv; exact hup

theorem road_normals_up (m : DynamicMesh) (segment : Segment) (conns : SplineConnections)
    (half_width : ℝ) :
    ∀ v ∈ (RoadMesh.generate m segment conns half_width).normals, v = (⟨0, 1, 0⟩ : Vec3) := by
  by_cases hd : segment.start = segment.«end»
  · have hout : RoadMesh.generate m segment conns half_width = emptyMesh := by
      simp [RoadMesh.generate, if_pos hd, DynamicMesh.clear]
    rw [hout]
    simp [emptyMesh]
  · have hout : RoadMesh.generate m segment conns half_width =
        applyRoadMatches
          (RoadMesh.generate_surface emptyMesh segment
            (Segment.offset_points segment
              (Vec2.scale half_width segment.displacement.perp.normalize) half_width
              (SplineConnections.minmax_angles conns segment.displacement .Start)).1
            (Segment.offset_points segment
              (Vec2.scale half_width segment.displacement.perp.normalize) half_width
              (SplineConnections.minmax_angles conns segment.displacement .Start)).2
            (Segment.offset_points segment.inverse
              (-(Vec2.scale half_width segment.displacement.perp.normalize)) half_width
              (SplineConnections.minmax_angles conns (-segment.displacement) .End)).2
            (Segment.offset_points segment.inverse
              (-(Vec2.scale half_width segment.displacement.perp.normalize)) half_width
              (SplineConnections.minmax_angles conns (-segment.displacement) .End)).1
            (-(Segment.displacement segment).to_angle + Real.pi / 2) (half_width * 2))
          segment (-(Segment.displacement segment).to_angle + Real.pi / 2) (half_width * 2)
          (SplineConnections.minmax_angles conns segment.displacement .Start)
          (SplineConnections.minmax_angles conns (-segment.displacement) .End) := by
      simp only [RoadMesh.generate, applyRoadMatches, DynamicMesh.clear]
      rw [if_neg hd]
    rw [hout]
    have hsurface : ∀ v ∈ (RoadMesh.generate_surface emptyMesh segment
        (Segment.offset_points segment
          (Vec2.scale half_width segment.displacement.perp.normalize) half_width
          (SplineConnections.minmax_angles conns segment.displacement .Start)).1
        (Segment.offset_points segment
          (Vec2.scale half_width segment.displacement.perp.normalize) half_width
          (SplineConnections.minmax_angles conns segment.displacement .Start)).2
        (Segment.offset_points segment.inverse
          (-(Vec2.scale half_width segment.displacement.perp.normalize)) half_width
          (SplineConnections.minmax_angles conns (-segment.displacement) .End)).2
        (Segment.offset_points segment.inverse
          (-(Vec2.scale half_width segment.displacement.perp.normalize)) half_width
          (SplineConnections.minmax_angles conns (-segment.displacement) .End)).1
        (-(Segment.displacement segment).to_angle + Real.pi / 2)
        (half_width * 2)).normals, v = (⟨0, 1, 0⟩ : Vec3) := by
      intro v hv
      simp only [RoadMesh.generate_surface, emptyMesh, List.nil_append, List.mem_append,
        List.mem_replicate, List.not_mem_nil, false_or] at hv
      exact hv.2
    generalize hm1 : RoadMesh.generate_surface emptyMesh segment _ _ _ _ _ _ = m1 at hsurface ⊢
    have hm2 : ∀ v ∈ (match SplineConnections.minmax_angles conns segment.displacement .Start
        with
        | .minMax _ _ => RoadMesh.generate_start_connection m1 segment
        | _ => m1).normals, v = (⟨0, 1, 0⟩ : Vec3) := by
      cases SplineConnections.minmax_angles conns segment.displacement .Start with
      | noElements => exact hsurface
      | oneElement s => exact hsurface
      | minMax a b =>
        intro v hv
        simp only [RoadMesh.generate_start_connection, List.mem_append, List.mem_cons,
          List.not_mem_nil, or_false] at hv
        rcases hv with hv | hv
        · exact hsurface v hv
        · exact hv
    simp only [applyRoadMatches]
    cases SplineConnections.minmax_angles conns (-segment.displacement) .End with
    | noElements => exact hm2
    | oneElement s => exact hm2
    | minMax a b =>
      intro v hv
      simp only [RoadMesh.generate_end_connection, List.mem_append, List.mem_cons,
        List.not_mem_nil, or_false] at hv
      rcases hv with hv | hv
      · exact hm2 v hv
      · exact hv

/-- C7 (amended): the emitted normals are not unit vectors in general: every
wall normal is either the unit up vector (0,1,0) (top face and junction fill),
the side's half-width offset vector of length `HALF_WIDTH` (side faces), or
plus/minus the un-normalized segment displacement (end caps); all road normals
are the unit up vector. -/
theorem normals_characterization (earcut : List ℝ → List ℕ → ℕ → List ℕ) (m : WallMesh)
    (wall : Wall) (conns : WallConnections) (aps : Apertures) :
    (∀ v ∈ (WallMesh.generate earcut m wall conns aps).normals,
      v = (⟨0, 1, 0⟩ : Vec3) ∨
      v = (⟨(wall_width wall.displacement).x, 0, (wall_width wall.displacement).y⟩ : Vec3) ∨
      v = (⟨-(wall_width wall.displacement).x, 0, -(wall_width wall.displacement).y⟩ : Vec3) ∨
      v = (⟨-wall.displacement.x, 0, -wall.displacement.y⟩ : Vec3) ∨
      v = (⟨wall.displacement.x, 0, wall.displacement.y⟩ : Vec3)) ∧
    (∀ m' segment conns' half_width,
      ∀ v ∈ (RoadMesh.generate m' segment conns' half_width).normals,
        v = (⟨0, 1, 0⟩ : Vec3)) := by
  constructor
  · by_cases hd : wall.start = wall.«end»
    · have hout : WallMesh.generate earcut m wall conns aps = emptyMesh := by
        simp [WallMesh.generate, if_pos hd, DynamicMesh.clear]
      rw [hout]
      simp [emptyMesh]
    · have hout : WallMesh.generate earcut m wall conns aps =
          applyEndMatch
            (applyStartMatch (wallSides earcut wall conns aps) wall
              (minmax_angles wall.displacement .Start conns.start)
              (offset_points wall (minmax_angles wall.displacement .Start conns.start)
                (wall_width wall.displacement)).1
              (offset_points wall (minmax_angles wall.displacement .Start conns.start)
                (wall_width wall.displacement)).2
              wall.displacement)
            wall (minmax_angles (-wall.displacement) .End conns.«end»)
            (offset_points wall.inverse (minmax_angles (-wall.displacement) .End conns.«end»)
              (-(wall_width wall.displacement))).2
            (offset_points wall.inverse (minmax_angles (-wall.displacement) .End conns.«end»)
              (-(wall_width wall.displacement))).1
            wall.displacement (-(Segment.displacement wall).to_angle) := by
        simp only [WallMesh.generate, wallSides, DynamicMesh.clear]
        rw [if_neg hd]
      rw [hout]
      refine normalsOk_applyEndMatch _ _ wall _ _ _ _ _ ?_ (Or.inl rfl)
        (Or.inr (Or.inr (Or.inr (Or.inr rfl))))
      refine normalsOk_applyStartMatch _ _ wall _ _ _ _ ?_ (Or.inl rfl)
        (Or.inr (Or.inr (Or.inr (Or.inl rfl))))
      simp only [wallSides]
      refine normalsOk_generate_side _ earcut _ wall aps _ _ _ _ _ ?_ (Or.inr (Or.inl rfl))
      refine normalsOk_generate_side _ earcut _ wall aps _ _ _ _ _ ?_
        (Or.inr (Or.inr (Or.inl rfl)))
      refine normalsOk_generate_top _ emptyMesh wall _ _ _ _ _ ?_ (Or.inl rfl)
      simp [emptyMesh]
  · exact road_normals_up

/-- Witness for C7's amended statement: the first normal of the concrete wall
is in the characterized set. -/
theorem normals_characterization_witness :
    (⟨0, 1, 0⟩ : Vec3) ∈ (WallMesh.generate E0 emptyMesh W0 C0 []).normals ∧
    ((⟨0, 1, 0⟩ : Vec3) = (⟨0, 1, 0⟩ : Vec3) ∨
      (⟨0, 1, 0⟩ : Vec3)
        = (⟨(wall_width W0.displacement).x, 0, (wall_width W0.displacement).y⟩ : Vec3) ∨
      (⟨0, 1, 0⟩ : Vec3)
        = (⟨-(wall_width W0.displacement).x, 0, -(wall_width W0.displacement).y⟩ : Vec3) ∨
      (⟨0, 1, 0⟩ : Vec3) = (⟨-W0.displacement.x, 0, -W0.displacement.y⟩ : Vec3) ∨
      (⟨0, 1, 0⟩ : Vec3) = (⟨W0.displacement.x, 0, W0.displacement.y⟩ : Vec3)) := by
  have hmem : (⟨0, 1, 0⟩ : Vec3) ∈ (WallMesh.generate E0 emptyMesh W0 C0 []).normals := by
    rw [(wallW0_buffer E0 emptyMesh).2.1]
    simp
  exact ⟨hmem, (normals_characterization E0 emptyMesh W0 C0 []).1 _ hmem⟩

end

end Harmonia
